import Mathlib

/-!
Verification of the request-admission pipeline of the simple-oracle-mcp
server: the `SecurityValidator` (SQL query / table-name validation) and the
`RateLimiter` (sliding-window per-client admission control) from
`src/main.py`, shallowly embedded over `List Char` / `String` with explicit
rational timestamps.
-/

/-- Python `str.strip()` whitespace characters (ASCII fragment). -/
def pyIsSpace (c : Char) : Bool :=
  c = ' ' || c = '\t' || c = '\n' || c = '\r' || c = '\x0b' || c = '\x0c'

/-- Regex word character `\w` (ASCII fragment): letters, digits, underscore. -/
def isWordChar (c : Char) : Bool :=
  c.isAlphanum || c = '_'

/-- Python `str.upper()` (ASCII fragment): map every character to upper case. -/
def pyUpper (s : List Char) : List Char :=
  s.map Char.toUpper

/-- Python `str.strip()`: drop whitespace from both ends. -/
def pyStrip (s : List Char) : List Char :=
  (s.dropWhile pyIsSpace).rdropWhile pyIsSpace

/-- Scanner for Python `str.count(sub)`: `skip` is the number of positions
still to pass over after a match (non-overlapping semantics: a match advances
the scan position by the pattern length). -/
def countSubGo (pat : List Char) : ℕ → List Char → ℕ
  | _, [] => 0
  | 0, c :: rest =>
    if pat.isPrefixOf (c :: rest) then countSubGo pat (pat.length - 1) rest + 1
    else countSubGo pat 0 rest
  | k + 1, _ :: rest => countSubGo pat k rest

/-- Python `str.count(sub)`: number of non-overlapping occurrences. -/
def countSub (pat : List Char) (s : List Char) : ℕ :=
  countSubGo pat 0 s

/-- Remainder of `s` strictly after the first occurrence of `pat` (none if absent). -/
def afterFirst (pat : List Char) (s : List Char) : Option (List Char) :=
  match s with
  | [] => none
  | c :: rest =>
    if pat.isPrefixOf (c :: rest) then some (List.drop (pat.length - 1) rest)
    else afterFirst pat rest

/-- Substring containment test. -/
def containsSub (pat : List Char) (s : List Char) : Bool :=
  (afterFirst pat s).isSome

/-- One atom of the embedded regular expressions: a literal character, or `\s+`. -/
inductive RItem where
  | ch (c : Char)
  | wsPlus
deriving DecidableEq

/-- Match a sequence of atoms at the head of `s`; `\s+` is matched greedily
(sound here because no atom following `\s+` in any embedded pattern can match a
whitespace character). Returns the last consumed character and the remainder. -/
def matchRun : List RItem → Char → List Char → Option (Char × List Char)
  | [], lastc, s => some (lastc, s)
  | RItem.ch _ :: _, _, [] => none
  | RItem.ch a :: items, _, x :: xs =>
      if x = a then matchRun items x xs else none
  | RItem.wsPlus :: _, _, [] => none
  | RItem.wsPlus :: items, _, x :: xs =>
      if pyIsSpace x then
        matchRun items ((x :: xs.takeWhile pyIsSpace).getLastD x) (xs.dropWhile pyIsSpace)
      else none

/-- Whether an optional character counts as a word character (`none` = outside the string). -/
def isWordO : Option Char → Bool
  | none => false
  | some c => isWordChar c

/-- Regex word boundary `\b` between two (optional) adjacent characters. -/
def bdry (a b : Option Char) : Bool :=
  isWordO a != isWordO b

/-- Does `\b alt \b` match exactly at the current position (with `prev` the
character immediately before the position)? -/
def altHere (alt : List RItem) (prev : Option Char) (s : List Char) : Bool :=
  match matchRun alt ' ' s with
  | none => false
  | some (lastc, rem) => bdry prev s.head? && bdry (some lastc) rem.head?

/-- Does `\b (alt1 | ... | altn) \b` match at the current position? -/
def wordPatHere (alts : List (List RItem)) (prev : Option Char) (s : List Char) : Bool :=
  alts.any (fun alt => altHere alt prev s)

/-- `re.search` of `\b(alt1|...|altn)\b`: try every position of `s`. -/
def scanWordPat (alts : List (List RItem)) : Option Char → List Char → Bool
  | prev, [] => wordPatHere alts prev []
  | prev, c :: rest => wordPatHere alts prev (c :: rest) || scanWordPat alts (some c) rest

/-- `re.search` of `\bA\b.*\bB\b` (with `.` matching anything, DOTALL):
some match of `A` with word boundaries is followed, anywhere later, by a match
of `B` with word boundaries. -/
def scanWordPat2 (alts1 alts2 : List (List RItem)) : Option Char → List Char → Bool
  | _, [] => false
  | prev, c :: rest =>
      (alts1.any fun alt =>
        match matchRun alt ' ' (c :: rest) with
        | none => false
        | some (lastc, rem) =>
            bdry prev (some c) && bdry (some lastc) rem.head? &&
            scanWordPat alts2 (some lastc) rem) ||
      scanWordPat2 alts1 alts2 (some c) rest

/-- Literal-word alternative (a regex alternative made only of literal characters). -/
def litAlt (w : String) : List RItem :=
  w.data.map RItem.ch

/-- Search for `\b(w1|...|wn)\b` in the whole string. -/
def hasWordPat (ws : List String) (s : List Char) : Bool :=
  scanWordPat (ws.map litAlt) none s

/-- Search for `\b(..)\b.*\b(..)\b` in the whole string. -/
def hasWordPat2 (ws1 ws2 : List String) (s : List Char) : Bool :=
  scanWordPat2 (ws1.map litAlt) (ws2.map litAlt) none s

/-- The regex `/\*.*?\*/`: a `/*` followed (anywhere later) by `*/`. -/
def hasBlockComment (s : List Char) : Bool :=
  match afterFirst ['/', '*'] s with
  | none => false
  | some r => containsSub ['*', '/'] r

/-- The `INTO\s+OUTFILE` alternative of the file-operations pattern. -/
def intoOutfileAlt : List RItem :=
  litAlt "INTO" ++ [RItem.wsPlus] ++ litAlt "OUTFILE"

/-- The `CONNECT\s+BY` alternative of the Oracle structural-injection pattern. -/
def connectByAlt : List RItem :=
  litAlt "CONNECT" ++ [RItem.wsPlus] ++ litAlt "BY"

/-- `SecurityValidator.BLOCKED_PATTERNS` and `ORACLE_SPECIFIC_BLOCKS`
(src/main.py lines 136-158), in source order: each entry pairs the Python
regex source text (used verbatim in the rejection message) with the embedded
matcher applied to the trimmed, uppercased query. -/
def ALL_PATTERNS : List (String × (List Char → Bool)) :=
  [ ("\\b(INSERT|UPDATE|DELETE|DROP|CREATE|ALTER|TRUNCATE|GRANT|REVOKE)\\b",
      hasWordPat ["INSERT", "UPDATE", "DELETE", "DROP", "CREATE", "ALTER",
                  "TRUNCATE", "GRANT", "REVOKE"]),
    ("\\b(EXEC|EXECUTE|SP_|XP_)\\b",
      hasWordPat ["EXEC", "EXECUTE", "SP_", "XP_"]),
    ("--.*", containsSub ['-', '-']),
    ("/\\*.*?\\*/", hasBlockComment),
    (";.*", containsSub [';']),
    ("\\bUNION\\b.*\\bSELECT\\b", hasWordPat2 ["UNION"] ["SELECT"]),
    ("\\b(WAITFOR|DELAY)\\b", hasWordPat ["WAITFOR", "DELAY"]),
    ("\\b(LOAD_FILE|INTO\\s+OUTFILE)\\b",
      fun s => scanWordPat [litAlt "LOAD_FILE", intoOutfileAlt] none s),
    ("\\b(DBMS_|UTL_|SYS\\.)\\b", hasWordPat ["DBMS_", "UTL_", "SYS."]),
    ("\\b(DUAL)\\b.*\\b(CONNECT\\s+BY)\\b",
      fun s => scanWordPat2 [litAlt "DUAL"] [connectByAlt] none s),
    ("\\b(CHR|ASCII|SUBSTR)\\b.*\\b(SELECT)\\b",
      hasWordPat2 ["CHR", "ASCII", "SUBSTR"] ["SELECT"]),
    ("\\b(DBMS_XMLQUERY|DBMS_XMLGEN|EXTRACTVALUE)\\b",
      hasWordPat ["DBMS_XMLQUERY", "DBMS_XMLGEN", "EXTRACTVALUE"]),
    ("\\b(SYS_CONTEXT|USERENV)\\b", hasWordPat ["SYS_CONTEXT", "USERENV"]),
    ("\\b(DBMS_PIPE|DBMS_LOCK)\\b", hasWordPat ["DBMS_PIPE", "DBMS_LOCK"]),
    ("\\b(JAVA_CALL|DBMS_JAVA)\\b", hasWordPat ["JAVA_CALL", "DBMS_JAVA"]),
    ("\\b(UTL_HTTP|UTL_FILE|UTL_TCP)\\b",
      hasWordPat ["UTL_HTTP", "UTL_FILE", "UTL_TCP"]),
    ("\\b(DBMS_EXPORT_EXTENSION)\\b", hasWordPat ["DBMS_EXPORT_EXTENSION"]) ]

/-- First blocked pattern (in source order) matching the trimmed uppercased query. -/
def findFirstBlocked (qUp : List Char) : Option String :=
  (ALL_PATTERNS.find? (fun p => p.2 qUp)).map (fun p => p.1)

/-- The complexity checks of `validate_query` (src/main.py lines 203-208),
computed on the raw query text: (count, limit, message) triples in order. -/
def complexityChecks (q : List Char) : List (ℕ × ℕ × String) :=
  [ (countSub ['('] q, 15, "Too many parentheses"),
    (countSub "SELECT".data q, 8, "Too many SELECT statements"),
    (countSub "JOIN".data q, 10, "Too many JOIN operations"),
    (q.length, 5000, "Query too long") ]

/-- First complexity check whose count exceeds its limit. -/
def findFirstComplex (q : List Char) : Option String :=
  ((complexityChecks q).find? (fun t => t.2.1 < t.1)).map (fun t => t.2.2)

/-- Tail of one concatenation pattern: after the opening quote, `\s*`, the
middle operator, `\s*`, then the closing quote (`\s*` matched greedily; sound
because the operator and quote characters are never whitespace). -/
def concatTail (q : Char) (mid : List Char) (r : List Char) : Bool :=
  let r1 := r.dropWhile pyIsSpace
  if mid.isPrefixOf r1 then
    match (r1.drop mid.length).dropWhile pyIsSpace with
    | x :: _ => x = q
    | [] => false
  else false

/-- `re.search` of a concatenation pattern `q \s* mid \s* q` in the raw query. -/
def concatMatch (q : Char) (mid : List Char) : List Char → Bool
  | [] => false
  | c :: rest => (c = q && concatTail q mid rest) || concatMatch q mid rest

/-- The three suspicious string-concatenation patterns of `validate_query`
(src/main.py lines 220-224): single quotes with `||`, single quotes with `+`,
double quotes with `||`. -/
def concatPatterns : List (Char × List Char) :=
  [ ('\'', ['|', '|']), ('\'', ['+']), ('"', ['|', '|']) ]

/-- Does any concatenation pattern match the raw query text? -/
def hasConcat (q : List Char) : Bool :=
  concatPatterns.any (fun p => concatMatch p.1 p.2 q)

/-- `SecurityValidator.validate_query` (src/main.py lines 161-237). -/
def validate_query (query : String) : Bool × String :=
  let qc := query.data
  if (pyStrip qc).isEmpty then (false, "Query cannot be empty")
  else
    let qUp := pyUpper (pyStrip qc)
    if ¬ ("SELECT".data.isPrefixOf qUp) then
      (false, "Only SELECT queries are allowed")
    else
      match findFirstBlocked qUp with
      | some pat => (false, "Query contains blocked pattern: " ++ pat)
      | none =>
        match findFirstComplex qc with
        | some msg => (false, "Query too complex: " ++ msg)
        | none =>
          if hasConcat qc then
            (false, "Query contains suspicious string concatenation")
          else
            (true, "Query validated successfully")

/-- First character class `[A-Za-z_]` of the table-name regex. -/
def isTableFirstChar (c : Char) : Bool :=
  c.isAlpha || c = '_'

/-- Tail character class `[A-Za-z0-9_#$]` of the table-name regex. -/
def isTableTailChar (c : Char) : Bool :=
  c.isAlphanum || c = '_' || c = '#' || c = '$'

/-- Tail of Python `re.match(r'^[A-Za-z_][A-Za-z0-9_#$]*$', name)`: all
characters in the class, where `$` also matches just before one final newline. -/
def tableTailOk : List Char → Bool
  | [] => true
  | [c] => isTableTailChar c || c = '\n'
  | c :: rest => isTableTailChar c && tableTailOk rest

/-- Python `re.match(r'^[A-Za-z_][A-Za-z0-9_#$]*$', name)` as a Boolean,
including Python's end-anchor behaviour (a single trailing newline is allowed). -/
def tableFormatOk (s : List Char) : Bool :=
  match s with
  | [] => false
  | c :: rest => isTableFirstChar c && tableTailOk rest

/-- `reserved_words` of `validate_table_name` (src/main.py lines 277-280). -/
def reserved_words : List String :=
  ["SYS", "SYSTEM", "DUAL", "USER", "ALL_TABLES", "DBA_TABLES",
   "V$SESSION", "V$DATABASE", "GV$", "X$"]

/-- `SecurityValidator.validate_table_name` (src/main.py lines 240-291). -/
def validate_table_name (table_name : String) : Bool × String :=
  let nc := table_name.data
  if (pyStrip nc).isEmpty then (false, "Table name cannot be empty")
  else if ¬ tableFormatOk nc then (false, "Invalid table name format")
  else if 128 < nc.length then (false, "Table name too long")
  else
    match reserved_words.find? (fun w => containsSub w.data (pyUpper nc)) with
    | some w => (false, "Table name contains reserved word: " ++ w)
    | none => (true, "Table name validated successfully")

/-- Python `int()` applied to a rational: truncation toward zero. -/
def pyTrunc (x : ℚ) : ℤ :=
  if 0 ≤ x then ⌊x⌋ else ⌈x⌉

/-- One value of `RateLimiter.requests`:
`{'count': int, 'first_request': float, 'last_request': float}`. -/
structure ClientEntry where
  count : ℕ
  first_request : ℚ
  last_request : ℚ
deriving DecidableEq

/-- The `RateLimiter` object (src/main.py lines 293-395): construction
parameters together with the two mutable dictionaries. -/
@[ext]
structure RateLimiter where
  max_requests : ℕ
  window_seconds : ℤ
  requests : String → Option ClientEntry
  blocked_clients : String → Option ℚ

/-- A freshly constructed `RateLimiter(max_requests, window_seconds)`. -/
def RateLimiter.init (N : ℕ) (W : ℤ) : RateLimiter :=
  ⟨N, W, fun _ => none, fun _ => none⟩

/-- The window sweep of `is_allowed` (src/main.py lines 353-356): keep only
entries whose window has not yet expired at time `now`. -/
def sweepRequests (W : ℤ) (req : String → Option ClientEntry) (now : ℚ) :
    String → Option ClientEntry :=
  fun k =>
    match req k with
    | some e => if now - e.first_request < (W : ℚ) then some e else none
    | none => none

/-- `RateLimiter.is_allowed` after the blocked-client check (src/main.py
lines 352-395): sweep, then register / count / block the client. -/
def is_allowed_core (rl : RateLimiter) (client_id : String) (now : ℚ) :
    (Bool × String) × RateLimiter :=
  let req := sweepRequests rl.window_seconds rl.requests now
  match req client_id with
  | none =>
      ((true, "Request allowed"),
       { rl with requests := fun k => if k = client_id then some ⟨1, now, now⟩ else req k })
  | some e =>
      if rl.max_requests ≤ e.count then
        ((false, "Rate limit exceeded (" ++ toString rl.max_requests ++
            " requests per " ++ toString rl.window_seconds ++
            "s). Try again in " ++
            toString (pyTrunc (e.first_request + (rl.window_seconds : ℚ) - now)) ++
            " seconds."),
         { rl with requests := req,
                   blocked_clients := fun k =>
                     if k = client_id then some (e.first_request + (rl.window_seconds : ℚ))
                     else rl.blocked_clients k })
      else
        ((true, "Request allowed (" ++ toString (e.count + 1) ++ "/" ++
            toString rl.max_requests ++ ")"),
         { rl with requests := fun k =>
             if k = client_id then some ⟨e.count + 1, e.first_request, now⟩ else req k })

/-- `RateLimiter.is_allowed` (src/main.py lines 316-395), evaluated at call
time `now` (`time.time()`), returning the `(bool, message)` result and the
updated limiter state. -/
def is_allowed (rl : RateLimiter) (client_id : String) (now : ℚ) :
    (Bool × String) × RateLimiter :=
  match rl.blocked_clients client_id with
  | some bu =>
      if now < bu then
        ((false, "Rate limit exceeded. Try again in " ++ toString (pyTrunc (bu - now)) ++
            " seconds."), rl)
      else
        is_allowed_core
          { rl with blocked_clients := fun k =>
              if k = client_id then none else rl.blocked_clients k }
          client_id now
  | none => is_allowed_core rl client_id now

/-- A Python dictionary subscript `m[k]`: raises `KeyError` when absent. -/
def pyGet {α : Type} (m : String → Option α) (k : String) : Except String α :=
  match m k with
  | some v => Except.ok v
  | none => Except.error "KeyError"

/-- `RateLimiter.is_allowed` transcribed with every fallible Python operation
made explicit: the dictionary subscripts `self.blocked_clients[client_id]`,
`del self.blocked_clients[client_id]` and `self.requests[client_id]` raise
`KeyError` when the key is absent; everything else is total. -/
def is_allowedE (rl : RateLimiter) (client_id : String) (now : ℚ) :
    Except String ((Bool × String) × RateLimiter) :=
  if (rl.blocked_clients client_id).isSome then do
    let bu ← pyGet rl.blocked_clients client_id
    if now < bu then
      return ((false, "Rate limit exceeded. Try again in " ++ toString (pyTrunc (bu - now)) ++
          " seconds."), rl)
    else do
      let _ ← pyGet rl.blocked_clients client_id
      let rl2 : RateLimiter :=
        { rl with blocked_clients := fun k =>
            if k = client_id then none else rl.blocked_clients k }
      let req := sweepRequests rl2.window_seconds rl2.requests now
      if (req client_id).isSome then do
        let e ← pyGet req client_id
        if rl2.max_requests ≤ e.count then
          return ((false, "Rate limit exceeded (" ++ toString rl2.max_requests ++
              " requests per " ++ toString rl2.window_seconds ++
              "s). Try again in " ++
              toString (pyTrunc (e.first_request + (rl2.window_seconds : ℚ) - now)) ++
              " seconds."),
            { rl2 with requests := req,
                       blocked_clients := fun k =>
                         if k = client_id then some (e.first_request + (rl2.window_seconds : ℚ))
                         else rl2.blocked_clients k })
        else
          return ((true, "Request allowed (" ++ toString (e.count + 1) ++ "/" ++
              toString rl2.max_requests ++ ")"),
            { rl2 with requests := fun k =>
                if k = client_id then some ⟨e.count + 1, e.first_request, now⟩ else req k })
      else
        return ((true, "Request allowed"),
          { rl2 with requests := fun k =>
              if k = client_id then some ⟨1, now, now⟩ else req k })
  else do
    let req := sweepRequests rl.window_seconds rl.requests now
    if (req client_id).isSome then do
      let e ← pyGet req client_id
      if rl.max_requests ≤ e.count then
        return ((false, "Rate limit exceeded (" ++ toString rl.max_requests ++
            " requests per " ++ toString rl.window_seconds ++
            "s). Try again in " ++
            toString (pyTrunc (e.first_request + (rl.window_seconds : ℚ) - now)) ++
            " seconds."),
          { rl with requests := req,
                    blocked_clients := fun k =>
                      if k = client_id then some (e.first_request + (rl.window_seconds : ℚ))
                      else rl.blocked_clients k })
      else
        return ((true, "Request allowed (" ++ toString (e.count + 1) ++ "/" ++
            toString rl.max_requests ++ ")"),
          { rl with requests := fun k =>
              if k = client_id then some ⟨e.count + 1, e.first_request, now⟩ else req k })
    else
      return ((true, "Request allowed"),
        { rl with requests := fun k =>
            if k = client_id then some ⟨1, now, now⟩ else req k })

/-- Run a sequence of `is_allowed` calls of one client at the given times. -/
def runCalls (c : String) : RateLimiter → List ℚ → List (Bool × String) × RateLimiter
  | rl, [] => ([], rl)
  | rl, t :: ts =>
      let r := is_allowed rl c t
      let rest := runCalls c r.2 ts
      (r.1 :: rest.1, rest.2)

/-- Run an interleaved sequence of `is_allowed` calls, each event being a
`(client_id, time)` pair; outputs are tagged with the calling client. -/
def runTrace : RateLimiter → List (String × ℚ) → List (String × Bool × String)
  | _, [] => []
  | rl, e :: tr =>
      let r := is_allowed rl e.1 e.2
      (e.1, r.1.1, r.1.2) :: runTrace r.2 tr

/-- The admission results one client observes in a tagged output list. -/
def outputsOf (c : String) (outs : List (String × Bool × String)) : List (Bool × String) :=
  (outs.filter (fun o => o.1 = c)).map (fun o => o.2)

/-- The DML/DDL verbs of the first blocked pattern. -/
def dml_words : List String :=
  ["INSERT", "UPDATE", "DELETE", "DROP", "CREATE", "ALTER", "TRUNCATE", "GRANT", "REVOKE"]

/-- The vendor-internal namespace alternatives of the ninth blocked pattern. -/
def ns_words : List String :=
  ["DBMS_", "UTL_", "SYS."]

/-- Modelled from the spec: `w` occurs in `s` delimited by regex word
boundaries on both sides (for an all-letter `w` this is exactly "contains `w`
as a whole word"). -/
def WordBoundedOccur (w s : List Char) : Prop :=
  ∃ a b, s = a ++ w ++ b ∧ bdry a.getLast? w.head? = true ∧ bdry w.getLast? b.head? = true

/-- Modelled from the spec: the exact language of `^[A-Za-z_][A-Za-z0-9_#$]*$`
read as a plain anchored regular expression (no Python final-newline quirk). -/
def tableRegexExact (s : List Char) : Bool :=
  match s with
  | [] => false
  | c :: rest => isTableFirstChar c && rest.all isTableTailChar

/-- Python `re.match` semantics of the table-name pattern, stated
declaratively: the exact language, or the exact language followed by one
final newline. -/
def tableRegexPyEquiv (s : List Char) : Bool :=
  tableRegexExact s || (s.getLast? = some '\n' && tableRegexExact s.dropLast)

/-- Modelled from the spec: the claimed characterisation of the strings
`validate_table_name` accepts — exact regex match, length at most 128, no
reserved substring in the uppercased name. -/
def tableNameSpecOk (name : String) : Bool :=
  tableRegexExact name.data && name.data.length ≤ 128 &&
    reserved_words.all (fun w => ¬ containsSub w.data (pyUpper name.data))

/-- A limiter state holding exactly one window entry (client `c`, count `i`,
window start `t0`, last request `tl`) and no blocked clients. -/
def singleEntryState (N : ℕ) (W : ℤ) (c : String) (i : ℕ) (t0 tl : ℚ) : RateLimiter :=
  ⟨N, W, fun k => if k = c then some ⟨i, t0, tl⟩ else none, fun _ => none⟩

/-- A limiter state holding one window entry for `c` together with a block for `c`. -/
def blockedEntryState (N : ℕ) (W : ℤ) (c : String) (i : ℕ) (t0 tl bu : ℚ) : RateLimiter :=
  ⟨N, W, fun k => if k = c then some ⟨i, t0, tl⟩ else none,
    fun k => if k = c then some bu else none⟩

/-- The state invariant of the rate limiter (claim C4): every window entry has
a count between 1 and `max_requests`, and a blocked client whose window entry
is still present was blocked with `blocked_until = window_start +
window_seconds`, its count latched at `max_requests`. -/
def RLInv (rl : RateLimiter) : Prop :=
  (∀ c e, rl.requests c = some e → 1 ≤ e.count ∧ e.count ≤ rl.max_requests) ∧
  (∀ c bu e, rl.blocked_clients c = some bu → rl.requests c = some e →
    bu = e.first_request + (rl.window_seconds : ℚ) ∧ e.count = rl.max_requests)

/-- Simulation relation for client independence (claim C9): the parts of two
limiter states visible to client `A` agree, except that the first run may
have already swept an expired window entry of `A` that the second still
carries (certified expired no later than time `t`). -/
def AgreeA (A : String) (t : ℚ) (si ss : RateLimiter) : Prop :=
  si.max_requests = ss.max_requests ∧
  si.window_seconds = ss.window_seconds ∧
  si.blocked_clients A = ss.blocked_clients A ∧
  (si.requests A = ss.requests A ∨
    (si.requests A = none ∧ ∃ e, ss.requests A = some e ∧
      e.first_request + (si.window_seconds : ℚ) ≤ t))

/-! ### Helper lemmas -/

theorem rdrop_rtake (p : Char → Bool) (l : List Char) :
    l.rdropWhile p ++ l.rtakeWhile p = l := by
  rw [List.rdropWhile, List.rtakeWhile, ← List.reverse_append,
    List.takeWhile_append_dropWhile, List.reverse_reverse]

theorem mem_pyStrip {c : Char} {l : List Char} (hc : pyIsSpace c = false) (h : c ∈ l) :
    c ∈ pyStrip l := by
  have h1 : c ∈ l.dropWhile pyIsSpace := by
    rcases List.mem_append.mp
      ((List.takeWhile_append_dropWhile (p := pyIsSpace) (l := l)) ▸ h) with h' | h'
    · exact absurd (List.mem_takeWhile_imp h') (by simp [hc])
    · exact h'
  rcases List.mem_append.mp ((rdrop_rtake pyIsSpace (l.dropWhile pyIsSpace)) ▸ h1) with h' | h'
  · exact h'
  · exact absurd (List.mem_rtakeWhile_imp h') (by simp [hc])

theorem mem_containsSub {c : Char} {l : List Char} (h : c ∈ l) :
    containsSub [c] l = true := by
  induction l with
  | nil => simp at h
  | cons x rest ih =>
    rcases List.mem_cons.mp h with h' | h'
    · subst h'
      simp [containsSub, afterFirst, List.isPrefixOf]
    · by_cases hcx : c = x
      · subst hcx; simp [containsSub, afterFirst, List.isPrefixOf]
      · have : ([c].isPrefixOf (x :: rest)) = false := by
          simpa [List.isPrefixOf] using hcx
        simp only [containsSub, afterFirst, this, Bool.false_eq_true, if_false]
        exact ih h'

theorem pyStrip_ne_nil_of_head {c : Char} {rest : List Char} (hc : pyIsSpace c = false) :
    pyStrip (c :: rest) ≠ [] := by
  intro hnil
  have h1 : (c :: rest).dropWhile pyIsSpace = c :: rest :=
    List.dropWhile_cons_of_neg (by simp [hc])
  rw [pyStrip, h1, List.rdropWhile_eq_nil_iff] at hnil
  have := hnil c (by simp)
  simp [hc] at this

/-! ### C7: validate_table_name -/

theorem ws_not_tableFirst {c : Char} (h : pyIsSpace c = true) : isTableFirstChar c = false := by
  simp only [pyIsSpace, Bool.or_eq_true, decide_eq_true_eq] at h
  rcases h with ((((h' | h') | h') | h') | h') | h' <;> subst h' <;> decide

theorem tableTailOk_iff (l : List Char) :
    tableTailOk l = true ↔
      (l.all isTableTailChar = true ∨
        (l.getLast? = some '\n' ∧ l.dropLast.all isTableTailChar = true)) := by
  induction l with
  | nil => simp [tableTailOk]
  | cons c rest ih =>
    cases rest with
    | nil =>
      simp only [tableTailOk, List.all_cons, List.all_nil, Bool.and_true, List.getLast?_singleton,
        List.dropLast_single, Option.some.injEq, Bool.or_eq_true, decide_eq_true_eq]
      tauto
    | cons d rest' =>
      simp only [tableTailOk, Bool.and_eq_true, ih, List.getLast?_cons_cons,
        List.dropLast_cons₂, List.all_cons]
      tauto

theorem tableFormatOk_iff (s : List Char) :
    tableFormatOk s = true ↔ tableRegexPyEquiv s = true := by
  cases s with
  | nil => simp [tableFormatOk, tableRegexPyEquiv, tableRegexExact]
  | cons c rest =>
    simp only [tableFormatOk, Bool.and_eq_true, tableTailOk_iff, tableRegexPyEquiv,
      tableRegexExact, Bool.or_eq_true]
    cases rest with
    | nil => simp
    | cons d rest' =>
      simp only [List.getLast?_cons_cons, List.dropLast_cons₂, List.all_cons,
        Bool.and_eq_true, decide_eq_true_eq]
      tauto

theorem strip_ne_of_format {name : String} (hfmt : tableFormatOk name.data = true) :
    (pyStrip name.data).isEmpty = false := by
  cases hd : name.data with
  | nil => rw [hd] at hfmt; simp [tableFormatOk] at hfmt
  | cons c rest =>
    rw [hd] at hfmt
    simp only [tableFormatOk, Bool.and_eq_true] at hfmt
    have hcs : pyIsSpace c = false := by
      by_contra hcontra
      have : pyIsSpace c = true := by
        cases hval : pyIsSpace c
        · exact absurd hval hcontra
        · rfl
      rw [ws_not_tableFirst this] at hfmt
      simp at hfmt
    have := @pyStrip_ne_nil_of_head c rest hcs
    simpa [List.isEmpty_iff] using this

/-- C7 (counterexample): the claim says `validate_table_name` accepts exactly
the strings matching `^[A-Za-z_][A-Za-z0-9_#$]*$` (with the length and
reserved-word conditions); but Python's `$` also matches just before one final
newline, so the code accepts `"ABC\n"`, which is outside the claimed set. -/
theorem validate_table_name_newline_counterexample :
    (validate_table_name "ABC\n").1 = true ∧ tableNameSpecOk "ABC\n" = false := by
  constructor
  · decide
  · decide

theorem validate_table_name_accept_iff (name : String) :
    (validate_table_name name).1 = true ↔
      (tableFormatOk name.data = true ∧ name.data.length ≤ 128 ∧
        reserved_words.find? (fun w => containsSub w.data (pyUpper name.data)) = none) := by
  cases hfmt : tableFormatOk name.data with
  | false =>
    constructor
    · intro hacc
      exfalso
      by_cases h1 : (pyStrip name.data).isEmpty = true
      · simp [validate_table_name, h1] at hacc
      · have h1' : (pyStrip name.data).isEmpty = false := by
          cases hv : (pyStrip name.data).isEmpty
          · rfl
          · exact absurd hv h1
        simp [validate_table_name, h1', hfmt] at hacc
    · rintro ⟨h, -, -⟩
      cases h
  | true =>
    have hne := strip_ne_of_format hfmt
    cases hfind : reserved_words.find? (fun w => containsSub w.data (pyUpper name.data)) with
    | some w =>
      constructor
      · intro hacc
        exfalso
        by_cases hl : 128 < name.length
        · simp [validate_table_name, hne, hfmt, hl] at hacc
        · simp [validate_table_name, hne, hfmt, hl, hfind] at hacc
      · rintro ⟨-, -, hcontra⟩
        cases hcontra
    | none =>
      constructor
      · intro hacc
        refine ⟨rfl, ?_, rfl⟩
        by_cases hl : 128 < name.length
        · exfalso; simp [validate_table_name, hne, hfmt, hl] at hacc
        · exact Nat.not_lt.mp hl
      · rintro ⟨-, hlen, -⟩
        have hlen' : ¬ 128 < name.length := Nat.not_lt.mpr hlen
        simp [validate_table_name, hne, hfmt, hlen', hfind]

/-- C7 (amended): `validate_table_name` accepts exactly the strings that match
the identifier pattern under Python `re.match` semantics (the exact regex
language, or the same followed by a single trailing newline), have length at
most 128, and whose uppercased form contains no reserved word as a substring;
when a reserved substring is present and the earlier checks pass, the reason
names the first reserved word in list order; `"V$SESSION"` is rejected with a
reserved-word reason and `"employee_records"` is accepted. -/
theorem validate_table_name_amended (name : String) :
    ((validate_table_name name).1 = true ↔
      (tableRegexPyEquiv name.data = true ∧ name.data.length ≤ 128 ∧
        ∀ w ∈ reserved_words, containsSub w.data (pyUpper name.data) = false)) ∧
    (∀ w, tableFormatOk name.data = true → name.data.length ≤ 128 →
      reserved_words.find? (fun w => containsSub w.data (pyUpper name.data)) = some w →
      validate_table_name name = (false, "Table name contains reserved word: " ++ w)) ∧
    validate_table_name "V$SESSION" = (false, "Table name contains reserved word: V$SESSION") ∧
    (validate_table_name "employee_records").1 = true := by
  refine ⟨?_, ?_, by decide, by decide⟩
  · rw [validate_table_name_accept_iff, tableFormatOk_iff]
    constructor
    · rintro ⟨h1, h2, h3⟩
      refine ⟨h1, h2, fun w hw => ?_⟩
      have := List.find?_eq_none.mp h3 w hw
      simpa using this
    · rintro ⟨h1, h2, h3⟩
      exact ⟨h1, h2, List.find?_eq_none.mpr (fun w hw => by simp [h3 w hw])⟩
  · intro w hfmt hlen hfind
    have hne := strip_ne_of_format hfmt
    have hlen' : ¬ 128 < name.length := Nat.not_lt.mpr hlen
    simp [validate_table_name, hne, hfmt, hlen', hfind]

/-- C7 (witness): the amended theorem applied to the concrete name
`"ABC_SYS"`, whose uppercased form contains the reserved word `SYS`. -/
theorem validate_table_name_amended_witness :
    tableFormatOk "ABC_SYS".data = true ∧ "ABC_SYS".data.length ≤ 128 ∧
    reserved_words.find? (fun w => containsSub w.data (pyUpper "ABC_SYS".data)) = some "SYS" ∧
    validate_table_name "ABC_SYS" = (false, "Table name contains reserved word: " ++ "SYS") :=
  ⟨by decide, by decide, by decide,
    (validate_table_name_amended "ABC_SYS").2.1 "SYS" (by decide) (by decide) (by decide)⟩

/-! ### C10: totality, rejections as values -/

/-- C10: all three admission operations are total and every error condition
surfaces as a returned rejection verdict: `is_allowed`, transcribed with every
fallible Python dictionary subscript made explicit, always returns `ok` (never
a `KeyError`), and `validate_query` / `validate_table_name` always return one
of the enumerated verdict values. -/
theorem admission_totality :
    (∀ rl c now, is_allowedE rl c now = Except.ok (is_allowed rl c now)) ∧
    (∀ q : String,
      validate_query q = (true, "Query validated successfully") ∨
      validate_query q = (false, "Query cannot be empty") ∨
      validate_query q = (false, "Only SELECT queries are allowed") ∨
      (∃ p ∈ ALL_PATTERNS,
        validate_query q = (false, "Query contains blocked pattern: " ++ p.1)) ∨
      (∃ t ∈ complexityChecks q.data,
        validate_query q = (false, "Query too complex: " ++ t.2.2)) ∨
      validate_query q = (false, "Query contains suspicious string concatenation")) ∧
    (∀ name : String,
      validate_table_name name = (true, "Table name validated successfully") ∨
      validate_table_name name = (false, "Table name cannot be empty") ∨
      validate_table_name name = (false, "Invalid table name format") ∨
      validate_table_name name = (false, "Table name too long") ∨
      (∃ w ∈ reserved_words,
        validate_table_name name = (false, "Table name contains reserved word: " ++ w))) := by
  refine ⟨?_, ?_, ?_⟩
  · intro rl c now
    cases hb : rl.blocked_clients c with
    | some bu =>
      by_cases hlt : now < bu
      · simp [is_allowedE, is_allowed, hb, hlt, pyGet, bind, Except.bind, pure, Except.pure]
      · cases hr : sweepRequests rl.window_seconds rl.requests now c with
        | some e =>
          by_cases hcnt : rl.max_requests ≤ e.count <;>
            simp [is_allowedE, is_allowed, is_allowed_core, hb, hlt, hr, hcnt, pyGet, bind, Except.bind, pure, Except.pure]
        | none =>
          simp [is_allowedE, is_allowed, is_allowed_core, hb, hlt, hr, pyGet, bind, Except.bind, pure, Except.pure]
    | none =>
      cases hr : sweepRequests rl.window_seconds rl.requests now c with
      | some e =>
        by_cases hcnt : rl.max_requests ≤ e.count <;>
          simp [is_allowedE, is_allowed, is_allowed_core, hb, hr, hcnt, pyGet, bind, Except.bind, pure, Except.pure]
      | none =>
        simp [is_allowedE, is_allowed, is_allowed_core, hb, hr, pyGet, bind, Except.bind, pure, Except.pure]
  · intro q
    by_cases h1 : (pyStrip q.data).isEmpty = true
    · right; left; simp [validate_query, h1]
    · have h1' : (pyStrip q.data).isEmpty = false := by
        cases hv : (pyStrip q.data).isEmpty
        · rfl
        · exact absurd hv h1
      by_cases h2 : "SELECT".data.isPrefixOf (pyUpper (pyStrip q.data)) = true
      · cases hf : ALL_PATTERNS.find? (fun p => p.2 (pyUpper (pyStrip q.data))) with
        | some p =>
          right; right; right; left
          refine ⟨p, List.mem_of_find?_eq_some hf, ?_⟩
          simp [validate_query, h1', h2, findFirstBlocked, hf]
        | none =>
          cases hc : (complexityChecks q.data).find? (fun t => t.2.1 < t.1) with
          | some t =>
            right; right; right; right; left
            refine ⟨t, List.mem_of_find?_eq_some hc, ?_⟩
            simp [validate_query, h1', h2, findFirstBlocked, hf, findFirstComplex, hc]
          | none =>
            by_cases hcc : hasConcat q.data = true
            · right; right; right; right; right
              simp [validate_query, h1', h2, findFirstBlocked, hf, findFirstComplex, hc, hcc]
            · left
              have hcc' : hasConcat q.data = false := by
                cases hv : hasConcat q.data
                · rfl
                · exact absurd hv hcc
              simp [validate_query, h1', h2, findFirstBlocked, hf, findFirstComplex, hc, hcc']
      · right; right; left
        simp [validate_query, h1', h2]
  · intro name
    by_cases h1 : (pyStrip name.data).isEmpty = true
    · right; left; simp [validate_table_name, h1]
    · have h1' : (pyStrip name.data).isEmpty = false := by
        cases hv : (pyStrip name.data).isEmpty
        · rfl
        · exact absurd hv h1
      by_cases h2 : tableFormatOk name.data = true
      · by_cases h3 : 128 < name.length
        · right; right; right; left
          simp [validate_table_name, h1', h2, h3]
        · cases hf : reserved_words.find? (fun w => containsSub w.data (pyUpper name.data)) with
          | some w =>
            right; right; right; right
            refine ⟨w, List.mem_of_find?_eq_some hf, ?_⟩
            simp [validate_table_name, h1', h2, h3, hf]
          | none =>
            left
            simp [validate_table_name, h1', h2, h3, hf]
      · right; right; left
        have h2' : tableFormatOk name.data = false := by
          cases hv : tableFormatOk name.data
          · rfl
          · exact absurd hv h2
        simp [validate_table_name, h1', h2']

/-! ### C6: complexity bounds -/

theorem strip_ne_of_select {q : String}
    (hsel : "SELECT".data.isPrefixOf (pyUpper (pyStrip q.data)) = true) :
    (pyStrip q.data).isEmpty = false := by
  cases hp : pyStrip q.data with
  | nil => rw [hp] at hsel; simp [pyUpper, List.isPrefixOf] at hsel
  | cons c rest => simp

/-- C6 (counterexample): the claim counts `SELECT` occurrences under the
case-insensitive normalization, but the code counts literal `'SELECT'`
occurrences in the raw query: a query with one uppercase `SELECT` and eight
lowercase `select` has nine occurrences after normalization, yet is accepted. -/
theorem select_count_case_counterexample :
    8 < countSub "SELECT".data (pyUpper (pyStrip
      "SELECT select select select select select select select select".data)) ∧
    (validate_query "SELECT select select select select select select select select").1 = true := by
  constructor
  · decide
  · decide

/-- C6 (amended): the complexity counts are taken on the raw query text,
case-sensitively: for every query that passes the SELECT-prefix and
blocked-pattern checks, more than 15 `'('` characters, more than 8 literal
`SELECT` substrings, more than 10 literal `JOIN` substrings (each earlier
bound not exceeded), or more than 5000 characters is rejected with the
distinct reason naming the failed bound; in particular `"SELECT "` followed
by 16 `'('`, `"1"`, and 16 `')'` is rejected with reason mentioning
"Too many parentheses". -/
theorem validate_query_complexity_amended (q : String)
    (hsel : "SELECT".data.isPrefixOf (pyUpper (pyStrip q.data)) = true)
    (hblock : findFirstBlocked (pyUpper (pyStrip q.data)) = none) :
    (15 < countSub ['('] q.data →
      validate_query q = (false, "Query too complex: Too many parentheses")) ∧
    (countSub ['('] q.data ≤ 15 → 8 < countSub "SELECT".data q.data →
      validate_query q = (false, "Query too complex: Too many SELECT statements")) ∧
    (countSub ['('] q.data ≤ 15 → countSub "SELECT".data q.data ≤ 8 →
      10 < countSub "JOIN".data q.data →
      validate_query q = (false, "Query too complex: Too many JOIN operations")) ∧
    (countSub ['('] q.data ≤ 15 → countSub "SELECT".data q.data ≤ 8 →
      countSub "JOIN".data q.data ≤ 10 → 5000 < q.data.length →
      validate_query q = (false, "Query too complex: Query too long")) ∧
    validate_query "SELECT ((((((((((((((((1))))))))))))))))" =
      (false, "Query too complex: Too many parentheses") := by
  have hne := strip_ne_of_select hsel
  have hfind : ALL_PATTERNS.find? (fun p => p.2 (pyUpper (pyStrip q.data))) = none := by
    simpa [findFirstBlocked, Option.map_eq_none'] using hblock
  refine ⟨?_, ?_, ?_, ?_, by decide⟩
  · intro h
    simp [validate_query, hne, hsel, findFirstBlocked, hblock, findFirstComplex,
      complexityChecks, List.find?_cons, h, hfind]
  · intro hp h
    simp [validate_query, hne, hsel, findFirstBlocked, hblock, findFirstComplex,
      complexityChecks, List.find?_cons, h, Nat.not_lt.mpr hp, hfind]
  · intro hp hs h
    simp [validate_query, hne, hsel, findFirstBlocked, hblock, findFirstComplex,
      complexityChecks, List.find?_cons, h, Nat.not_lt.mpr hp, Nat.not_lt.mpr hs, hfind]
  · intro hp hs hj h
    have h' : 5000 < q.length := h
    simp [validate_query, hne, hsel, findFirstBlocked, findFirstComplex,
      complexityChecks, List.find?_cons, h', Nat.not_lt.mpr hp, Nat.not_lt.mpr hs,
      Nat.not_lt.mpr hj, hfind]

/-- C6 (witness): the amended theorem applied to the concrete
too-many-parentheses query. -/
theorem validate_query_complexity_amended_witness :
    "SELECT".data.isPrefixOf
      (pyUpper (pyStrip "SELECT ((((((((((((((((1))))))))))))))))".data)) = true ∧
    findFirstBlocked (pyUpper (pyStrip "SELECT ((((((((((((((((1))))))))))))))))".data)) = none ∧
    15 < countSub ['('] "SELECT ((((((((((((((((1))))))))))))))))".data ∧
    validate_query "SELECT ((((((((((((((((1))))))))))))))))" =
      (false, "Query too complex: Too many parentheses") :=
  ⟨by decide, by decide, by decide,
    (validate_query_complexity_amended "SELECT ((((((((((((((((1))))))))))))))))"
      (by decide) (by decide)).1 (by decide)⟩

/-! ### C8: string-concatenation patterns -/

/-- C8 (counterexample): the claim includes double-quoted strings joined by
`+` among the rejected shapes, but the code has no such pattern (only
single-quote `||`, single-quote `+`, and double-quote `||`): the query
`SELECT "A" + "B" FROM T` contains that shape, passes every earlier check,
and is accepted. -/
theorem dquote_plus_concat_counterexample :
    concatMatch '"' ['+'] "SELECT \"A\" + \"B\" FROM T".data = true ∧
    validate_query "SELECT \"A\" + \"B\" FROM T" = (true, "Query validated successfully") :=
  ⟨by decide, by decide⟩

/-- C8 (amended): for every query that passes the SELECT-prefix,
blocked-pattern, and complexity checks, a raw-text match of one of the three
concatenation patterns actually present in the code — adjacent single-quoted
strings joined by `||` or by `+`, or adjacent double-quoted strings joined by
`||` (but not double-quoted strings joined by `+`) — is rejected with reason
"Query contains suspicious string concatenation". -/
theorem validate_query_concat_amended (q : String)
    (hsel : "SELECT".data.isPrefixOf (pyUpper (pyStrip q.data)) = true)
    (hblock : findFirstBlocked (pyUpper (pyStrip q.data)) = none)
    (hp : countSub ['('] q.data ≤ 15) (hs : countSub "SELECT".data q.data ≤ 8)
    (hj : countSub "JOIN".data q.data ≤ 10) (hlen : q.data.length ≤ 5000)
    (hcat : concatMatch '\'' ['|', '|'] q.data = true ∨
      concatMatch '\'' ['+'] q.data = true ∨
      concatMatch '"' ['|', '|'] q.data = true) :
    validate_query q = (false, "Query contains suspicious string concatenation") := by
  have hne := strip_ne_of_select hsel
  have hfind : ALL_PATTERNS.find? (fun p => p.2 (pyUpper (pyStrip q.data))) = none := by
    simpa [findFirstBlocked, Option.map_eq_none'] using hblock
  have hlen' : ¬ 5000 < q.length := Nat.not_lt.mpr hlen
  have hcx : findFirstComplex q.data = none := by
    simp [findFirstComplex, complexityChecks, List.find?_cons, Nat.not_lt.mpr hp,
      Nat.not_lt.mpr hs, Nat.not_lt.mpr hj, hlen']
  have hcc : hasConcat q.data = true := by
    rcases hcat with h | h | h <;> simp [hasConcat, concatPatterns, h]
  simp [validate_query, hne, hsel, findFirstBlocked, hfind, hcx, hcc]

/-- C8 (witness): the amended theorem applied to the concrete query
`SELECT "A" || "B" FROM T`, which matches the double-quote `||` pattern. -/
theorem validate_query_concat_amended_witness :
    "SELECT".data.isPrefixOf (pyUpper (pyStrip "SELECT \"A\" || \"B\" FROM T".data)) = true ∧
    findFirstBlocked (pyUpper (pyStrip "SELECT \"A\" || \"B\" FROM T".data)) = none ∧
    concatMatch '"' ['|', '|'] "SELECT \"A\" || \"B\" FROM T".data = true ∧
    validate_query "SELECT \"A\" || \"B\" FROM T" =
      (false, "Query contains suspicious string concatenation") :=
  ⟨by decide, by decide, by decide,
    validate_query_concat_amended "SELECT \"A\" || \"B\" FROM T" (by decide) (by decide)
      (by decide) (by decide) (by decide) (by decide)
      (Or.inr (Or.inr (by decide)))⟩

/-! ### C5: vendor-internal namespace patterns -/

/-- C5 (counterexample): the claim says any SELECT query containing the
prefix `DBMS_` (such as a `DBMS_RANDOM` call) is rejected, but the pattern
`\b(DBMS_|UTL_|SYS\.)\b` requires a word boundary after the underscore, so
`SELECT DBMS_RANDOM.VALUE FROM T` contains `DBMS_` yet is accepted. -/
theorem dbms_prefix_not_blocked_counterexample :
    containsSub "DBMS_".data (pyUpper "SELECT DBMS_RANDOM.VALUE FROM T".data) = true ∧
    "SELECT".data.isPrefixOf
      (pyUpper (pyStrip "SELECT DBMS_RANDOM.VALUE FROM T".data)) = true ∧
    validate_query "SELECT DBMS_RANDOM.VALUE FROM T" = (true, "Query validated successfully") :=
  ⟨by decide, by decide, by decide⟩

/-! ### Word-boundary machinery -/

theorem char_toNat_ofNat (n : ℕ) (h : n.isValidChar) : (Char.ofNat n).toNat = n := by
  simp only [Char.ofNat, h, dif_pos, Char.ofNatAux, Char.toNat, UInt32.toNat]
  rfl

theorem ws_toNat_le {x : Char} (hx : pyIsSpace x = true) : x.toNat ≤ 32 := by
  simp only [pyIsSpace, Bool.or_eq_true, decide_eq_true_eq] at hx
  rcases hx with ((((h | h) | h) | h) | h) | h <;> subst h <;> decide

theorem pyIsSpace_toUpper (c : Char) : pyIsSpace c.toUpper = pyIsSpace c := by
  unfold Char.toUpper
  by_cases h : c.toNat ≥ 97 ∧ c.toNat ≤ 122
  · rw [if_pos h]
    have hvalid : (c.toNat - 32).isValidChar := Or.inl (by omega)
    have hval : (Char.ofNat (c.toNat - 32)).toNat = c.toNat - 32 := char_toNat_ofNat _ hvalid
    have h1 : pyIsSpace (Char.ofNat (c.toNat - 32)) = false := by
      cases hv : pyIsSpace (Char.ofNat (c.toNat - 32)) with
      | false => rfl
      | true =>
        have := ws_toNat_le hv
        rw [hval] at this
        omega
    have h2 : pyIsSpace c = false := by
      cases hv : pyIsSpace c with
      | false => rfl
      | true =>
        have := ws_toNat_le hv
        omega
    rw [h1, h2]
  · rw [if_neg h]

theorem ws_not_word {c : Char} (h : pyIsSpace c = true) : isWordChar c = false := by
  simp only [pyIsSpace, Bool.or_eq_true, decide_eq_true_eq] at h
  rcases h with ((((h' | h') | h') | h') | h') | h' <;> subst h' <;> decide

theorem map_rdropWhile (f : Char → Char) (p : Char → Bool) (l : List Char) :
    (l.map f).rdropWhile p = (l.rdropWhile (p ∘ f)).map f := by
  simp [List.rdropWhile, ← List.map_reverse, List.dropWhile_map]

theorem pyUpper_pyStrip (s : List Char) : pyUpper (pyStrip s) = pyStrip (pyUpper s) := by
  have hcomp : (pyIsSpace ∘ Char.toUpper) = pyIsSpace := funext pyIsSpace_toUpper
  unfold pyUpper pyStrip
  rw [List.dropWhile_map, map_rdropWhile, hcomp]

theorem matchRun_lit (w : List Char) (d : Char) (b : List Char) :
    matchRun (w.map RItem.ch) d (w ++ b) = some (w.getLastD d, b) := by
  induction w generalizing d with
  | nil => rfl
  | cons x w' ih =>
    simp only [List.map_cons, List.cons_append, matchRun, if_pos]
    show matchRun (List.map RItem.ch w') x (w' ++ b) = some ((x :: w').getLastD d, b)
    rw [ih x, List.getLastD_cons]

theorem getLast?_cons_or (c : Char) (a : List Char) :
    (c :: a).getLast? = (a.getLast?).or (some c) := by
  cases a with
  | nil => rfl
  | cons d a' =>
    rw [List.getLast?_cons_cons]
    cases hh : (d :: a').getLast? with
    | none => simp at hh
    | some y => simp [Option.or]

theorem scanWordPat_append (alts : List (List RItem)) (a : List Char) (prev : Option Char)
    (t : List Char) (h : scanWordPat alts ((a.getLast?).or prev) t = true) :
    scanWordPat alts prev (a ++ t) = true := by
  induction a generalizing prev with
  | nil => simpa using h
  | cons c a' ih =>
    have h' : scanWordPat alts ((a'.getLast?).or (some c)) t = true := by
      rw [getLast?_cons_or] at h
      rcases ha : a'.getLast? with - | y
      · rw [ha] at h
        simpa using h
      · rw [ha] at h
        simpa [Option.or] using h
    have hrec := ih (some c) h'
    rw [List.cons_append, scanWordPat]
    simp [hrec]

theorem wordPatHere_occur {w : List Char} {alts : List (List RItem)}
    (hmem : w.map RItem.ch ∈ alts) (hw : w ≠ []) {prev : Option Char} {b : List Char}
    (hb1 : bdry prev w.head? = true) (hb2 : bdry w.getLast? b.head? = true) :
    wordPatHere alts prev (w ++ b) = true := by
  rcases w with - | ⟨x, w'⟩
  · exact absurd rfl hw
  · simp only [wordPatHere, List.any_eq_true]
    refine ⟨(x :: w').map RItem.ch, hmem, ?_⟩
    simp only [altHere, matchRun_lit]
    have hh : ((x :: w') ++ b).head? = (x :: w').head? := rfl
    have hl : some ((x :: w').getLastD ' ') = (x :: w').getLast? := by
      cases hy : (x :: w').getLast? with
      | none => simp at hy
      | some y => simp [List.getLastD_eq_getLast?, hy]
    rw [hh, hl, hb1, hb2]
    rfl

theorem scanWordPat_of_occur {w s : List Char} {alts : List (List RItem)}
    (hmem : w.map RItem.ch ∈ alts) (hw : w ≠ [])
    (hocc : WordBoundedOccur w s) : scanWordPat alts none s = true := by
  rcases hocc with ⟨a, b, rfl, hb1, hb2⟩
  rw [List.append_assoc]
  apply scanWordPat_append
  rw [Option.or_none]
  rcases w with - | ⟨x, w'⟩
  · exact absurd rfl hw
  · rw [List.cons_append, scanWordPat]
    have := wordPatHere_occur hmem hw hb1 hb2
    rw [List.cons_append] at this
    simp [this]

theorem dropWhile_sandwich (p : Char → Bool) (a b : List Char) {m : List Char}
    (hm : ∃ y m', m = y :: m' ∧ p y = false) :
    (a ++ m ++ b).dropWhile p = a.dropWhile p ++ m ++ b := by
  rcases hm with ⟨y, m', rfl, hy⟩
  rw [List.append_assoc, List.dropWhile_append]
  by_cases he : (a.dropWhile p).isEmpty = true
  · rw [if_pos he]
    have h2 : ((y :: m') ++ b).dropWhile p = (y :: m') ++ b := by
      rw [List.cons_append]
      exact List.dropWhile_cons_of_neg (by simp [hy])
    rw [h2, List.isEmpty_iff.mp he]
    simp
  · rw [if_neg he, List.append_assoc]

theorem getLast?_of_dropWhile_ne_nil {p : Char → Bool} {a : List Char}
    (h : a.dropWhile p ≠ []) : (a.dropWhile p).getLast? = a.getLast? := by
  conv_rhs => rw [← List.takeWhile_append_dropWhile (p := p) (l := a)]
  exact (List.getLast?_append_of_ne_nil _ h).symm

theorem head?_of_rdropWhile_ne_nil {p : Char → Bool} {b : List Char}
    (h : b.rdropWhile p ≠ []) : (b.rdropWhile p).head? = b.head? := by
  obtain ⟨t, ht⟩ := List.rdropWhile_prefix (l := b) p
  cases hb : b.rdropWhile p with
  | nil => exact absurd hb h
  | cons x xs =>
    conv_rhs => rw [← ht, hb]
    rfl

theorem wordOccur_strip {w u : List Char} (hws : ∀ c ∈ w, pyIsSpace c = false)
    (hhead : isWordO w.head? = true) (hw : w ≠ [])
    (hocc : WordBoundedOccur w u) : WordBoundedOccur w (pyStrip u) := by
  rcases hocc with ⟨a, b, rfl, hb1, hb2⟩
  obtain ⟨x, w', rfl⟩ : ∃ x w', w = x :: w' := by
    cases w with
    | nil => exact absurd rfl hw
    | cons x w' => exact ⟨x, w', rfl⟩
  have hxw : isWordChar x = true := by simpa [isWordO] using hhead
  have hxs : pyIsSpace x = false := hws x (by simp)
  -- Step A: drop leading whitespace
  have hA : (a ++ (x :: w') ++ b).dropWhile pyIsSpace
      = a.dropWhile pyIsSpace ++ (x :: w') ++ b :=
    dropWhile_sandwich pyIsSpace a b ⟨x, w', rfl, hxs⟩
  have hbA : bdry (a.dropWhile pyIsSpace).getLast? (some x) = true := by
    by_cases ha : a.dropWhile pyIsSpace = []
    · rw [ha]
      simp only [List.getLast?_nil, bdry, isWordO]
      rw [hxw]
      rfl
    · rw [getLast?_of_dropWhile_ne_nil ha]
      simpa using hb1
  -- Step B: drop trailing whitespace
  have hlastw : ∃ y m', (x :: w').reverse = y :: m' ∧ pyIsSpace y = false := by
    cases hr : (x :: w').reverse with
    | nil => simp at hr
    | cons y m' =>
      refine ⟨y, m', rfl, ?_⟩
      have hy : y ∈ (x :: w').reverse := by rw [hr]; simp
      exact hws y (List.mem_reverse.mp hy)
  have hB : (a.dropWhile pyIsSpace ++ (x :: w') ++ b).rdropWhile pyIsSpace
      = a.dropWhile pyIsSpace ++ (x :: w') ++ b.rdropWhile pyIsSpace := by
    rw [List.rdropWhile]
    have hrev : (a.dropWhile pyIsSpace ++ (x :: w') ++ b).reverse
        = b.reverse ++ (x :: w').reverse ++ (a.dropWhile pyIsSpace).reverse := by
      simp [List.reverse_append, List.append_assoc]
    rw [hrev, dropWhile_sandwich pyIsSpace b.reverse (a.dropWhile pyIsSpace).reverse hlastw]
    simp only [List.reverse_append, List.reverse_reverse, List.rdropWhile]
    rw [List.append_assoc]
  have hbB : bdry (x :: w').getLast? (b.rdropWhile pyIsSpace).head? = true := by
    by_cases hbnil : b.rdropWhile pyIsSpace = []
    · rw [hbnil]
      cases hlw : isWordO (x :: w').getLast? with
      | true =>
        show (isWordO (x :: w').getLast? != isWordO none) = true
        rw [hlw]
        rfl
      | false =>
        exfalso
        rw [bdry, hlw] at hb2
        have hbw : isWordO b.head? = true := by
          cases hv : isWordO b.head? with
          | true => rfl
          | false => rw [hv] at hb2; simp at hb2
        cases hbc : b with
        | nil => rw [hbc] at hbw; simp [isWordO] at hbw
        | cons hb' tb =>
          rw [hbc] at hbw
          have hbword : isWordChar hb' = true := by simpa [isWordO] using hbw
          have hbws : pyIsSpace hb' = true := by
            have := List.rdropWhile_eq_nil_iff.mp (hbc ▸ hbnil) hb' (by simp)
            exact this
          rw [ws_not_word hbws] at hbword
          cases hbword
    · rw [head?_of_rdropWhile_ne_nil hbnil]
      exact hb2
  refine ⟨a.dropWhile pyIsSpace, b.rdropWhile pyIsSpace, ?_, ?_, hbB⟩
  · rw [pyStrip, hA, hB]
  · exact hbA

/-! ### C1, C5, C2: blocked patterns and query shape -/

theorem strip_ne_of_occur {w : List Char} {q : String} (hw : w ≠ [])
    (hocc : WordBoundedOccur w (pyUpper (pyStrip q.data))) :
    (pyStrip q.data).isEmpty = false := by
  cases hp : pyStrip q.data with
  | nil =>
    exfalso
    rw [hp] at hocc
    rcases hocc with ⟨a, b, heq, -, -⟩
    have h0 : a ++ w ++ b = [] := by simpa [pyUpper] using heq.symm
    have h1 := List.append_eq_nil.mp h0
    have h2 := List.append_eq_nil.mp h1.1
    exact hw h2.2
  | cons c rest => simp

/-- C1: every input containing one of the DML/DDL verbs INSERT, UPDATE,
DELETE, DROP, CREATE, ALTER, TRUNCATE, GRANT, REVOKE as a whole word
(case-insensitively, i.e. as a word-bounded occurrence in the uppercased
text) is rejected by `validate_query` — also when the input starts with
SELECT — and in the SELECT-prefixed case the rejection reason names the
DML blocked pattern, which is the pattern that matched. -/
theorem validate_query_blocks_dml (q : String)
    (h : ∃ w ∈ dml_words, WordBoundedOccur w.data (pyUpper q.data)) :
    (validate_query q).1 = false ∧
    ("SELECT".data.isPrefixOf (pyUpper (pyStrip q.data)) = true →
      validate_query q = (false, "Query contains blocked pattern: " ++
        "\\b(INSERT|UPDATE|DELETE|DROP|CREATE|ALTER|TRUNCATE|GRANT|REVOKE)\\b")) := by
  rcases h with ⟨w, hwmem, hocc⟩
  have hfacts : ∀ w' ∈ dml_words, w'.data ≠ [] ∧ (∀ c ∈ w'.data, pyIsSpace c = false) ∧
      isWordO w'.data.head? = true := by decide
  obtain ⟨hne, hws, hhead⟩ := hfacts w hwmem
  have hocc2 : WordBoundedOccur w.data (pyUpper (pyStrip q.data)) := by
    rw [pyUpper_pyStrip]
    exact wordOccur_strip hws hhead hne hocc
  have hmatch : hasWordPat ["INSERT", "UPDATE", "DELETE", "DROP", "CREATE", "ALTER",
      "TRUNCATE", "GRANT", "REVOKE"] (pyUpper (pyStrip q.data)) = true :=
    scanWordPat_of_occur (List.mem_map_of_mem litAlt hwmem) hne hocc2
  have hfind : findFirstBlocked (pyUpper (pyStrip q.data)) =
      some "\\b(INSERT|UPDATE|DELETE|DROP|CREATE|ALTER|TRUNCATE|GRANT|REVOKE)\\b" := by
    have hpos : (fun p : String × (List Char → Bool) => p.2 (pyUpper (pyStrip q.data)))
        ("\\b(INSERT|UPDATE|DELETE|DROP|CREATE|ALTER|TRUNCATE|GRANT|REVOKE)\\b",
          hasWordPat ["INSERT", "UPDATE", "DELETE", "DROP", "CREATE", "ALTER",
            "TRUNCATE", "GRANT", "REVOKE"]) = true := hmatch
    have hstep : ALL_PATTERNS.find? (fun p => p.2 (pyUpper (pyStrip q.data))) =
        some ("\\b(INSERT|UPDATE|DELETE|DROP|CREATE|ALTER|TRUNCATE|GRANT|REVOKE)\\b",
          hasWordPat ["INSERT", "UPDATE", "DELETE", "DROP", "CREATE", "ALTER",
            "TRUNCATE", "GRANT", "REVOKE"]) := by
      rw [ALL_PATTERNS]
      exact List.find?_cons_of_pos _ hpos
    rw [findFirstBlocked, hstep]
    rfl
  have hne2 := strip_ne_of_occur hne hocc2
  by_cases hsel : "SELECT".data.isPrefixOf (pyUpper (pyStrip q.data)) = true
  · constructor
    · simp [validate_query, hne2, hsel, hfind]
    · intro h'
      simp [validate_query, hne2, hsel, hfind]
  · have hsel' : "SELECT".data.isPrefixOf (pyUpper (pyStrip q.data)) = false := by
      cases hv : "SELECT".data.isPrefixOf (pyUpper (pyStrip q.data))
      · rfl
      · exact absurd hv hsel
    constructor
    · simp [validate_query, hne2, hsel']
    · intro h'
      rw [h'] at hsel'
      cases hsel'

/-- C1 (witness): the theorem applied to `"SELECT 1; DROP TABLE x"`, which
contains the whole word DROP. -/
theorem validate_query_blocks_dml_witness :
    (∃ w ∈ dml_words,
      WordBoundedOccur w.data (pyUpper "SELECT 1; DROP TABLE x".data)) ∧
    (validate_query "SELECT 1; DROP TABLE x").1 = false ∧
    ("SELECT".data.isPrefixOf (pyUpper (pyStrip "SELECT 1; DROP TABLE x".data)) = true →
      validate_query "SELECT 1; DROP TABLE x" = (false, "Query contains blocked pattern: " ++
        "\\b(INSERT|UPDATE|DELETE|DROP|CREATE|ALTER|TRUNCATE|GRANT|REVOKE)\\b")) :=
  ⟨⟨"DROP", by decide, "SELECT 1; ".data, " TABLE X".data, by decide, by decide, by decide⟩,
    validate_query_blocks_dml "SELECT 1; DROP TABLE x"
      ⟨"DROP", by decide, "SELECT 1; ".data, " TABLE X".data, by decide, by decide, by decide⟩⟩

/-- C5 (amended): a SELECT query is rejected when the uppercased text
contains `DBMS_` or `UTL_` bounded by regex word boundaries (so followed by a
non-word character or end of text — plain package calls like
`DBMS_RANDOM.VALUE` are not caught), or `SYS.` preceded by a word boundary
and followed by a word character. -/
theorem validate_query_ns_pattern_amended (q : String)
    (hsel : "SELECT".data.isPrefixOf (pyUpper (pyStrip q.data)) = true)
    (h : ∃ w ∈ ns_words, WordBoundedOccur w.data (pyUpper q.data)) :
    (validate_query q).1 = false := by
  rcases h with ⟨w, hwmem, hocc⟩
  have hfacts : ∀ w' ∈ ns_words, w'.data ≠ [] ∧ (∀ c ∈ w'.data, pyIsSpace c = false) ∧
      isWordO w'.data.head? = true := by decide
  obtain ⟨hne, hws, hhead⟩ := hfacts w hwmem
  have hocc2 : WordBoundedOccur w.data (pyUpper (pyStrip q.data)) := by
    rw [pyUpper_pyStrip]
    exact wordOccur_strip hws hhead hne hocc
  have hmatch : hasWordPat ["DBMS_", "UTL_", "SYS."] (pyUpper (pyStrip q.data)) = true :=
    scanWordPat_of_occur (List.mem_map_of_mem litAlt hwmem) hne hocc2
  have hne2 := strip_ne_of_occur hne hocc2
  have hsome : (ALL_PATTERNS.find? (fun p => p.2 (pyUpper (pyStrip q.data)))).isSome = true := by
    apply List.find?_isSome.mpr
    refine ⟨("\\b(DBMS_|UTL_|SYS\\.)\\b", hasWordPat ["DBMS_", "UTL_", "SYS."]), ?_, hmatch⟩
    rw [ALL_PATTERNS]
    exact List.mem_cons_of_mem _ (List.mem_cons_of_mem _ (List.mem_cons_of_mem _
      (List.mem_cons_of_mem _ (List.mem_cons_of_mem _ (List.mem_cons_of_mem _
        (List.mem_cons_of_mem _ (List.mem_cons_of_mem _ (List.mem_cons_self _ _))))))))
  cases hf : ALL_PATTERNS.find? (fun p => p.2 (pyUpper (pyStrip q.data))) with
  | none => rw [hf] at hsome; cases hsome
  | some p => simp [validate_query, hne2, hsel, findFirstBlocked, hf]

/-- C5 (witness): the amended theorem applied to `"SELECT DBMS_ FROM T"`,
where `DBMS_` is followed by a space and hence word-bounded. -/
theorem validate_query_ns_pattern_amended_witness :
    "SELECT".data.isPrefixOf (pyUpper (pyStrip "SELECT DBMS_ FROM T".data)) = true ∧
    (∃ w ∈ ns_words, WordBoundedOccur w.data (pyUpper "SELECT DBMS_ FROM T".data)) ∧
    (validate_query "SELECT DBMS_ FROM T").1 = false :=
  ⟨by decide,
    ⟨"DBMS_", by decide, "SELECT ".data, " FROM T".data, by decide, by decide, by decide⟩,
    validate_query_ns_pattern_amended "SELECT DBMS_ FROM T" (by decide)
      ⟨"DBMS_", by decide, "SELECT ".data, " FROM T".data, by decide, by decide, by decide⟩⟩

/-- C2: `validate_query` rejects every empty or whitespace-only input with
reason "Query cannot be empty", rejects every other input whose trimmed text
does not start (case-insensitively) with SELECT with reason "Only SELECT
queries are allowed", and every accepted string starts, after trimming and
case-folding, with SELECT and contains no semicolon followed by further
content (indeed no semicolon at all, since the `;.*` pattern matches any
semicolon). -/
theorem validate_query_shape (q : String) :
    ((pyStrip q.data).isEmpty = true → validate_query q = (false, "Query cannot be empty")) ∧
    ((pyStrip q.data).isEmpty = false →
      "SELECT".data.isPrefixOf (pyUpper (pyStrip q.data)) = false →
      validate_query q = (false, "Only SELECT queries are allowed")) ∧
    ((validate_query q).1 = true →
      "SELECT".data.isPrefixOf (pyUpper (pyStrip q.data)) = true ∧
      ∀ a b, q.data = a ++ ';' :: b → b = []) := by
  refine ⟨?_, ?_, ?_⟩
  · intro h
    simp [validate_query, h]
  · intro h1 h2
    simp [validate_query, h1, h2]
  · intro hacc
    by_cases h1 : (pyStrip q.data).isEmpty = true
    · simp [validate_query, h1] at hacc
    · have h1' : (pyStrip q.data).isEmpty = false := by
        cases hv : (pyStrip q.data).isEmpty
        · rfl
        · exact absurd hv h1
      by_cases h2 : "SELECT".data.isPrefixOf (pyUpper (pyStrip q.data)) = true
      · refine ⟨h2, ?_⟩
        intro a b heq
        exfalso
        have hsem : ';' ∈ q.data := by rw [heq]; simp
        have hsem2 : ';' ∈ pyUpper (pyStrip q.data) := by
          have m1 : ';' ∈ pyStrip q.data := mem_pyStrip (by decide) hsem
          have m2 : Char.toUpper ';' ∈ pyUpper (pyStrip q.data) := List.mem_map_of_mem _ m1
          simpa using m2
        have hcs : containsSub [';'] (pyUpper (pyStrip q.data)) = true := mem_containsSub hsem2
        cases hf : ALL_PATTERNS.find? (fun p => p.2 (pyUpper (pyStrip q.data))) with
        | some p => simp [validate_query, h1', h2, findFirstBlocked, hf] at hacc
        | none =>
          have hmem : ((";.*" : String), containsSub [';']) ∈ ALL_PATTERNS := by
            rw [ALL_PATTERNS]
            exact List.mem_cons_of_mem _ (List.mem_cons_of_mem _ (List.mem_cons_of_mem _
              (List.mem_cons_of_mem _ (List.mem_cons_self _ _))))
          have := List.find?_eq_none.mp hf _ hmem
          exact this hcs
      · have h2' : "SELECT".data.isPrefixOf (pyUpper (pyStrip q.data)) = false := by
          cases hv : "SELECT".data.isPrefixOf (pyUpper (pyStrip q.data))
          · rfl
          · exact absurd hv h2
        simp [validate_query, h1', h2'] at hacc

/-- C2 (witness): the three parts of the theorem instantiated at concrete
inputs: the empty query, a non-SELECT query, and an accepted SELECT query. -/
theorem validate_query_shape_witness :
    validate_query "" = (false, "Query cannot be empty") ∧
    validate_query "DELETE FROM t" = (false, "Only SELECT queries are allowed") ∧
    ("SELECT".data.isPrefixOf (pyUpper (pyStrip "SELECT 1".data)) = true ∧
      ∀ a b, "SELECT 1".data = a ++ ';' :: b → b = []) :=
  ⟨(validate_query_shape "").1 (by decide),
    (validate_query_shape "DELETE FROM t").2.1 (by decide) (by decide),
    (validate_query_shape "SELECT 1").2.2 (by decide)⟩

/-! ### C3: window quota sequence -/

theorem is_allowed_init (N : ℕ) (W : ℤ) (c : String) (t0 : ℚ) :
    is_allowed (RateLimiter.init N W) c t0 =
      ((true, "Request allowed"), singleEntryState N W c 1 t0 t0) := by
  have hb : (RateLimiter.init N W).blocked_clients c = none := rfl
  simp only [is_allowed, hb]
  have hrc : sweepRequests W (RateLimiter.init N W).requests t0 c = none := rfl
  simp only [is_allowed_core, hrc]
  refine Prod.ext rfl ?_
  ext k
  · rfl
  · rfl
  · by_cases hk : k = c <;> simp [hk, sweepRequests, RateLimiter.init, singleEntryState]
  · rfl

theorem is_allowed_single_step {N : ℕ} {W : ℤ} (c : String) (i : ℕ) (t0 tl t : ℚ)
    (hiN : i < N) (ht : t - t0 < (W : ℚ)) :
    is_allowed (singleEntryState N W c i t0 tl) c t =
      ((true, "Request allowed (" ++ toString (i + 1) ++ "/" ++ toString N ++ ")"),
        singleEntryState N W c (i + 1) t0 t) := by
  have hrc : sweepRequests W
      (fun k => if k = c then some (⟨i, t0, tl⟩ : ClientEntry) else none) t c =
      some ⟨i, t0, tl⟩ := by
    simp [sweepRequests, ht]
  simp only [is_allowed, is_allowed_core, singleEntryState, hrc]
  rw [if_neg (Nat.not_le.mpr hiN)]
  refine Prod.ext rfl ?_
  refine RateLimiter.ext rfl rfl ?_ rfl
  funext k
  by_cases hk : k = c <;> simp [hk, sweepRequests, ht]

theorem is_allowed_block_step {N : ℕ} {W : ℤ} (c : String) (i : ℕ) (t0 tl t : ℚ)
    (hiN : N ≤ i) (ht : t - t0 < (W : ℚ)) :
    is_allowed (singleEntryState N W c i t0 tl) c t =
      ((false, "Rate limit exceeded (" ++ toString N ++ " requests per " ++ toString W ++
          "s). Try again in " ++ toString (pyTrunc (t0 + (W : ℚ) - t)) ++ " seconds."),
        blockedEntryState N W c i t0 tl (t0 + (W : ℚ))) := by
  have hrc : sweepRequests W
      (fun k => if k = c then some (⟨i, t0, tl⟩ : ClientEntry) else none) t c =
      some ⟨i, t0, tl⟩ := by
    simp [sweepRequests, ht]
  simp only [is_allowed, is_allowed_core, singleEntryState, hrc]
  rw [if_pos hiN]
  refine Prod.ext rfl ?_
  refine RateLimiter.ext rfl rfl ?_ ?_
  · funext k
    by_cases hk : k = c <;> simp [hk, sweepRequests, ht, blockedEntryState]
  · funext k
    by_cases hk : k = c <;> simp [hk, blockedEntryState]

theorem is_allowed_unblock_step {N : ℕ} {W : ℤ} (c : String) (i : ℕ) (t0 tl bu t : ℚ)
    (hbu : bu ≤ t) (hexp : (W : ℚ) ≤ t - t0) :
    is_allowed (blockedEntryState N W c i t0 tl bu) c t =
      ((true, "Request allowed"), singleEntryState N W c 1 t t) := by
  have hb : (blockedEntryState N W c i t0 tl bu).blocked_clients c = some bu := by
    simp [blockedEntryState]
  simp only [is_allowed, hb]
  rw [if_neg (not_lt.mpr hbu)]
  have hrc : sweepRequests W
      (fun k => if k = c then some (⟨i, t0, tl⟩ : ClientEntry) else none) t c = none := by
    have hnot : ¬ t - t0 < (W : ℚ) := not_lt.mpr hexp
    simp [sweepRequests, hnot]
  simp only [is_allowed_core, blockedEntryState, hrc]
  refine Prod.ext rfl ?_
  refine RateLimiter.ext rfl rfl ?_ ?_
  · funext k
    by_cases hk : k = c
    · simp [hk, singleEntryState]
    · simp [hk, sweepRequests, singleEntryState]
  · funext k
    by_cases hk : k = c <;> simp [hk, singleEntryState]

theorem runCalls_window {N : ℕ} {W : ℤ} (c : String) (t0 : ℚ) :
    ∀ (ts : List ℚ) (i : ℕ) (tl : ℚ), 1 ≤ i → i + ts.length ≤ N →
      (∀ t ∈ ts, t0 ≤ t ∧ t < t0 + (W : ℚ)) →
      (∀ o ∈ (runCalls c (singleEntryState N W c i t0 tl) ts).1, o.1 = true) ∧
      (runCalls c (singleEntryState N W c i t0 tl) ts).2 =
        singleEntryState N W c (i + ts.length) t0 (ts.getLastD tl)
  | [], i, tl, _, _, _ => by simp [runCalls]
  | t :: ts', i, tl, h1, h2, h3 => by
    have hi : i < N := by
      simp only [List.length_cons] at h2
      omega
    have htw : t - t0 < (W : ℚ) := by
      have := (h3 t (by simp)).2
      linarith
    have hstep := is_allowed_single_step (N := N) (W := W) c i t0 tl t hi htw
    obtain ⟨ih1, ih2⟩ := runCalls_window (N := N) (W := W) c t0 ts' (i + 1) t (by omega)
      (by simp only [List.length_cons] at h2; omega)
      (fun u hu => h3 u (by simp [hu]))
    constructor
    · intro o ho
      simp only [runCalls, hstep] at ho
      rcases List.mem_cons.mp ho with h' | h'
      · rw [h']
      · exact ih1 o h'
    · simp only [runCalls, hstep, ih2, List.getLastD_cons, List.length_cons]
      have : i + 1 + ts'.length = i + (ts'.length + 1) := by omega
      rw [this]

/-- C3: for a fresh `RateLimiter(N, W)` with `N ≥ 1`, `W ≥ 1`, and a single
client whose calls all fall within `W` seconds of its first call at `t0`:
the first `N` calls are all allowed; call `N+1` (within the window) is
rejected, creates a block lasting until `t0 + W`, and reports the remaining
seconds in its message; and the first call at a time `now ≥ blocked_until`
is allowed again with a fresh window (count reset to 1, message
"Request allowed"). -/
theorem rate_limiter_window_quota (N : ℕ) (W : ℤ) (c : String) (t0 : ℚ) (ts : List ℚ)
    (hN : 1 ≤ N) (hW : 1 ≤ W) (hlen : ts.length + 1 = N)
    (hts : ∀ t ∈ ts, t0 ≤ t ∧ t < t0 + (W : ℚ)) :
    (is_allowed (RateLimiter.init N W) c t0).1 = (true, "Request allowed") ∧
    (∀ o ∈ (runCalls c (is_allowed (RateLimiter.init N W) c t0).2 ts).1, o.1 = true) ∧
    (∀ t', t0 ≤ t' → t' < t0 + (W : ℚ) →
      (is_allowed (runCalls c (is_allowed (RateLimiter.init N W) c t0).2 ts).2 c t').1 =
        (false, "Rate limit exceeded (" ++ toString N ++ " requests per " ++ toString W ++
          "s). Try again in " ++ toString (pyTrunc (t0 + (W : ℚ) - t')) ++ " seconds.") ∧
      (is_allowed (runCalls c (is_allowed (RateLimiter.init N W) c t0).2 ts).2 c
        t').2.blocked_clients c = some (t0 + (W : ℚ)) ∧
      (∀ t'', t0 + (W : ℚ) ≤ t'' →
        (is_allowed ((is_allowed (runCalls c (is_allowed (RateLimiter.init N W) c t0).2 ts).2 c
            t').2) c t'').1 = (true, "Request allowed") ∧
        (is_allowed ((is_allowed (runCalls c (is_allowed (RateLimiter.init N W) c t0).2 ts).2 c
            t').2) c t'').2.requests c = some ⟨1, t'', t''⟩)) := by
  rw [is_allowed_init N W c t0]
  obtain ⟨houts, hstate⟩ := runCalls_window (N := N) (W := W) c t0 ts 1 t0 (le_refl 1)
    (by omega) hts
  simp only [hstate]
  have hNeq : 1 + ts.length = N := by omega
  rw [hNeq]
  refine ⟨by trivial, houts, ?_⟩
  intro t' h1' h2'
  have hblock := is_allowed_block_step (N := N) (W := W) c N t0 (ts.getLastD t0) t'
    (le_refl N) (by linarith)
  rw [hblock]
  refine ⟨rfl, by simp [blockedEntryState], ?_⟩
  intro t'' ht''
  have hunblock := is_allowed_unblock_step (N := N) (W := W) c N t0 (ts.getLastD t0)
    (t0 + (W : ℚ)) t'' ht'' (by linarith)
  rw [hunblock]
  exact ⟨rfl, by simp [singleEntryState]⟩

/-- C3 (witness): the theorem applied to `RateLimiter(2, 60)`, client `"c1"`,
first call at time 0, second at 10, third at 20 (rejected and blocked until
60), and a call at 60 (allowed again, fresh window). -/
theorem rate_limiter_window_quota_witness :
    ((is_allowed (RateLimiter.init 2 60) "c1" 0).1 = (true, "Request allowed") ∧
    (∀ o ∈ (runCalls "c1" (is_allowed (RateLimiter.init 2 60) "c1" 0).2 [10]).1, o.1 = true) ∧
    (∀ t', (0 : ℚ) ≤ t' → t' < 0 + ((60 : ℤ) : ℚ) →
      (is_allowed (runCalls "c1" (is_allowed (RateLimiter.init 2 60) "c1" 0).2 [10]).2 "c1"
          t').1 =
        (false, "Rate limit exceeded (" ++ toString 2 ++ " requests per " ++ toString (60 : ℤ) ++
          "s). Try again in " ++ toString (pyTrunc (0 + ((60 : ℤ) : ℚ) - t')) ++ " seconds.") ∧
      (is_allowed (runCalls "c1" (is_allowed (RateLimiter.init 2 60) "c1" 0).2 [10]).2 "c1"
        t').2.blocked_clients "c1" = some (0 + ((60 : ℤ) : ℚ)) ∧
      (∀ t'', 0 + ((60 : ℤ) : ℚ) ≤ t'' →
        (is_allowed ((is_allowed (runCalls "c1" (is_allowed (RateLimiter.init 2 60) "c1" 0).2
            [10]).2 "c1" t').2) "c1" t'').1 = (true, "Request allowed") ∧
        (is_allowed ((is_allowed (runCalls "c1" (is_allowed (RateLimiter.init 2 60) "c1" 0).2
            [10]).2 "c1" t').2) "c1" t'').2.requests "c1" = some ⟨1, t'', t''⟩))) :=
  rate_limiter_window_quota 2 60 "c1" 0 [10] (by decide) (by decide) (by decide)
    (by intro t ht; simp at ht; subst ht; constructor <;> norm_num)

/-! ### C4: state invariant -/

theorem is_allowed_eq_core {rl : RateLimiter} {c : String} (now : ℚ)
    (h : rl.blocked_clients c = none) : is_allowed rl c now = is_allowed_core rl c now := by
  simp [is_allowed, h]

theorem is_allowed_blocked_active {rl : RateLimiter} {c : String} {bu : ℚ} (now : ℚ)
    (h : rl.blocked_clients c = some bu) (hlt : now < bu) :
    is_allowed rl c now = ((false, "Rate limit exceeded. Try again in " ++
      toString (pyTrunc (bu - now)) ++ " seconds."), rl) := by
  simp [is_allowed, h, hlt]

theorem is_allowed_blocked_expired {rl : RateLimiter} {c : String} {bu : ℚ} (now : ℚ)
    (h : rl.blocked_clients c = some bu) (hge : ¬ now < bu) :
    is_allowed rl c now = is_allowed_core
      { rl with blocked_clients := fun k => if k = c then none else rl.blocked_clients k }
      c now := by
  simp [is_allowed, h, hge]

theorem sweep_some {W : ℤ} {req : String → Option ClientEntry} {now : ℚ} {d : String}
    {e : ClientEntry} (h : sweepRequests W req now d = some e) :
    req d = some e ∧ now - e.first_request < (W : ℚ) := by
  unfold sweepRequests at h
  split at h
  · rename_i e0 heq
    split at h
    · rename_i hc
      cases h
      exact ⟨heq, hc⟩
    · cases h
  · cases h

theorem sweep_none_of {W : ℤ} {req : String → Option ClientEntry} {now : ℚ} {d : String}
    {e : ClientEntry} (h : sweepRequests W req now d = none) (hr : req d = some e) :
    ¬ now - e.first_request < (W : ℚ) := by
  intro hc
  unfold sweepRequests at h
  split at h
  · rename_i e0 heq
    rw [hr] at heq
    cases heq
    split at h
    · cases h
    · rename_i hc'
      exact hc' hc
  · rename_i heq
    rw [hr] at heq
    cases heq

theorem rl_core_invariant (rl : RateLimiter) (c : String) (now : ℚ)
    (hN : 1 ≤ rl.max_requests) (hW : 1 ≤ rl.window_seconds) (hInv : RLInv rl)
    (hbc : rl.blocked_clients c = none) :
    RLInv (is_allowed_core rl c now).2 ∧
    (∀ d e e', rl.requests d = some e → (is_allowed_core rl c now).2.requests d = some e' →
      e'.first_request = e.first_request → e.count = rl.max_requests →
      e'.count = rl.max_requests) ∧
    (∀ e, rl.requests c = some e → e.count = rl.max_requests →
      now - e.first_request < (rl.window_seconds : ℚ) →
      (is_allowed_core rl c now).1.1 = false ∧
      (is_allowed_core rl c now).2.blocked_clients c =
        some (e.first_request + (rl.window_seconds : ℚ))) := by
  have hWq : (1 : ℚ) ≤ (rl.window_seconds : ℚ) := by exact_mod_cast hW
  cases hq : sweepRequests rl.window_seconds rl.requests now c with
  | none =>
    simp only [is_allowed_core, hq]
    dsimp only [RLInv]
    refine ⟨⟨?_, ?_⟩, ?_, ?_⟩
    · intro d e h
      by_cases hd : d = c
      · rw [if_pos hd] at h
        cases h
        exact ⟨le_refl 1, hN⟩
      · rw [if_neg hd] at h
        obtain ⟨h1, -⟩ := sweep_some h
        exact hInv.1 d e h1
    · intro d bu e h1 h2
      by_cases hd : d = c
      · rw [hd, hbc] at h1
        cases h1
      · rw [if_neg hd] at h2
        obtain ⟨h2', -⟩ := sweep_some h2
        exact hInv.2 d bu e h1 h2'
    · intro d e e' h1 h2 hfirst hcount
      by_cases hd : d = c
      · rw [if_pos hd] at h2
        cases h2
        exfalso
        rw [hd] at h1
        have hdrop := sweep_none_of hq h1
        simp only at hfirst
        rw [← hfirst] at hdrop
        simp at hdrop
        linarith
      · rw [if_neg hd] at h2
        obtain ⟨h2', -⟩ := sweep_some h2
        rw [h1] at h2'
        cases h2'
        exact hcount
    · intro e h1 hcount hwin
      exfalso
      exact sweep_none_of hq h1 hwin
  | some e0 =>
    obtain ⟨hr0, hwin0⟩ := sweep_some hq
    by_cases hcnt : rl.max_requests ≤ e0.count
    · simp only [is_allowed_core, hq, if_pos hcnt]
      dsimp only [RLInv]
      have hical : e0.count = rl.max_requests :=
        le_antisymm (hInv.1 c e0 hr0).2 hcnt
      refine ⟨⟨?_, ?_⟩, ?_, ?_⟩
      · intro d e h
        obtain ⟨h1, -⟩ := sweep_some h
        exact hInv.1 d e h1
      · intro d bu e h1 h2
        by_cases hd : d = c
        · rw [if_pos hd] at h1
          cases h1
          rw [hd, hq] at h2
          cases h2
          exact ⟨rfl, hical⟩
        · rw [if_neg hd] at h1
          obtain ⟨h2', -⟩ := sweep_some h2
          exact hInv.2 d bu e h1 h2'
      · intro d e e' h1 h2 hfirst hcount
        obtain ⟨h2', -⟩ := sweep_some h2
        rw [h1] at h2'
        cases h2'
        exact hcount
      · intro e h1 hcount hwin
        rw [hr0] at h1
        cases h1
        exact ⟨by trivial, by simp⟩
    · simp only [is_allowed_core, hq, if_neg hcnt]
      dsimp only [RLInv]
      refine ⟨⟨?_, ?_⟩, ?_, ?_⟩
      · intro d e h
        by_cases hd : d = c
        · rw [if_pos hd] at h
          cases h
          simp only
          omega
        · rw [if_neg hd] at h
          obtain ⟨h1, -⟩ := sweep_some h
          exact hInv.1 d e h1
      · intro d bu e h1 h2
        by_cases hd : d = c
        · rw [hd, hbc] at h1
          cases h1
        · rw [if_neg hd] at h2
          obtain ⟨h2', -⟩ := sweep_some h2
          exact hInv.2 d bu e h1 h2'
      · intro d e e' h1 h2 hfirst hcount
        by_cases hd : d = c
        · exfalso
          rw [hd, hr0] at h1
          cases h1
          rw [hcount] at hcnt
          exact hcnt (le_refl _)
        · rw [if_neg hd] at h2
          obtain ⟨h2', -⟩ := sweep_some h2
          rw [h1] at h2'
          cases h2'
          exact hcount
      · intro e h1 hcount hwin
        exfalso
        rw [hr0] at h1
        cases h1
        rw [hcount] at hcnt
        exact hcnt (le_refl _)

/-- C4: for any limiter state with `max_requests ≥ 1` and
`window_seconds ≥ 1` satisfying the state invariant — every window entry has
`1 ≤ count ≤ max_requests`, and a blocked client whose window entry is
present has `blocked_until = window_start + window_seconds` with its count
latched at `max_requests` — every `is_allowed` call preserves the invariant;
an entry that has reached `max_requests` is never incremented within the
same window; and a call by a client at the cap (not already blocked, window
unexpired) is rejected and transitions the client to blocked with
`blocked_until = window_start + window_seconds`. -/
theorem rate_limiter_invariant (rl : RateLimiter) (c : String) (now : ℚ)
    (hN : 1 ≤ rl.max_requests) (hW : 1 ≤ rl.window_seconds) (hInv : RLInv rl) :
    RLInv (is_allowed rl c now).2 ∧
    (∀ d e e', rl.requests d = some e → (is_allowed rl c now).2.requests d = some e' →
      e'.first_request = e.first_request → e.count = rl.max_requests →
      e'.count = rl.max_requests) ∧
    (∀ e, rl.requests c = some e → e.count = rl.max_requests →
      rl.blocked_clients c = none → now - e.first_request < (rl.window_seconds : ℚ) →
      (is_allowed rl c now).1.1 = false ∧
      (is_allowed rl c now).2.blocked_clients c =
        some (e.first_request + (rl.window_seconds : ℚ))) := by
  cases hb : rl.blocked_clients c with
  | some bu =>
    by_cases hlt : now < bu
    · rw [is_allowed_blocked_active now hb hlt]
      refine ⟨hInv, ?_, ?_⟩
      · intro d e e' h1 h2 _ hcount
        dsimp only at h2
        rw [h1] at h2
        cases h2
        exact hcount
      · intro e _ _ hbc _
        cases hbc
    · rw [is_allowed_blocked_expired now hb hlt]
      have hInv2 : RLInv { rl with blocked_clients :=
          fun k => if k = c then none else rl.blocked_clients k } := by
        constructor
        · intro d e h
          exact hInv.1 d e h
        · intro d bu' e h1 h2
          dsimp only at h1
          by_cases hd : d = c
          · rw [if_pos hd] at h1
            cases h1
          · rw [if_neg hd] at h1
            exact hInv.2 d bu' e h1 h2
      have hbc2 : ({ rl with blocked_clients :=
          fun k => if k = c then none else rl.blocked_clients k } :
            RateLimiter).blocked_clients c = none := by
        simp
      obtain ⟨r1, r2, r3⟩ := rl_core_invariant { rl with blocked_clients :=
          fun k => if k = c then none else rl.blocked_clients k } c now hN hW hInv2 hbc2
      refine ⟨r1, ?_, ?_⟩
      · intro d e e' h1 h2 hf hc
        exact r2 d e e' h1 h2 hf hc
      · intro e _ _ hbc _
        cases hbc
  | none =>
    rw [is_allowed_eq_core now hb]
    obtain ⟨r1, r2, r3⟩ := rl_core_invariant rl c now hN hW hInv hb
    exact ⟨r1, r2, fun e h1 hcount _ hwin => r3 e h1 hcount hwin⟩

theorem RLInv_init (N : ℕ) (W : ℤ) : RLInv (RateLimiter.init N W) := by
  constructor
  · intro d e h
    cases h
  · intro d bu e h1 h2
    cases h1

/-- C4 (witness): the theorem applied to a fresh `RateLimiter(1, 1)`,
client `"a"`, call time 0; the fresh state trivially satisfies the
invariant. -/
theorem rate_limiter_invariant_witness :
    (1 ≤ (RateLimiter.init 1 1).max_requests ∧ 1 ≤ (RateLimiter.init 1 1).window_seconds ∧
      RLInv (RateLimiter.init 1 1)) ∧
    RLInv (is_allowed (RateLimiter.init 1 1) "a" 0).2 :=
  ⟨⟨by decide, by decide, RLInv_init 1 1⟩,
    (rate_limiter_invariant (RateLimiter.init 1 1) "a" 0 (by decide) (by decide)
      (RLInv_init 1 1)).1⟩

/-! ### C9: client independence -/

theorem sweep_none_val {W : ℤ} {req : String → Option ClientEntry} {now : ℚ} {d : String}
    (h : req d = none) : sweepRequests W req now d = none := by
  simp [sweepRequests, h]

theorem sweep_none_of_expired {W : ℤ} {req : String → Option ClientEntry} {now : ℚ}
    {d : String} {e : ClientEntry} (h : req d = some e)
    (hc : ¬ now - e.first_request < (W : ℚ)) : sweepRequests W req now d = none := by
  simp [sweepRequests, h, hc]

theorem sweep_some_of_live {W : ℤ} {req : String → Option ClientEntry} {now : ℚ}
    {d : String} {e : ClientEntry} (h : req d = some e)
    (hc : now - e.first_request < (W : ℚ)) : sweepRequests W req now d = some e := by
  simp [sweepRequests, h, hc]

theorem AgreeA_mono {A : String} {t t' : ℚ} {si ss : RateLimiter}
    (h : AgreeA A t si ss) (hle : t ≤ t') : AgreeA A t' si ss := by
  obtain ⟨h1, h2, h3, h4⟩ := h
  refine ⟨h1, h2, h3, ?_⟩
  rcases h4 with h4 | ⟨hn, e, hs, hc⟩
  · exact Or.inl h4
  · exact Or.inr ⟨hn, e, hs, le_trans hc hle⟩

theorem core_other {rl : RateLimiter} {b : String} (now : ℚ) {d : String} (hd : d ≠ b) :
    (is_allowed_core rl b now).2.blocked_clients d = rl.blocked_clients d ∧
    (is_allowed_core rl b now).2.max_requests = rl.max_requests ∧
    (is_allowed_core rl b now).2.window_seconds = rl.window_seconds ∧
    (is_allowed_core rl b now).2.requests d =
      sweepRequests rl.window_seconds rl.requests now d := by
  cases hq : sweepRequests rl.window_seconds rl.requests now b with
  | none =>
    simp only [is_allowed_core, hq]
    exact ⟨by trivial, by trivial, by trivial, by rw [if_neg hd]⟩
  | some e =>
    by_cases hcnt : rl.max_requests ≤ e.count
    · simp only [is_allowed_core, hq, if_pos hcnt]
      exact ⟨by rw [if_neg hd], by trivial, by trivial, by trivial⟩
    · simp only [is_allowed_core, hq, if_neg hcnt]
      exact ⟨by trivial, by trivial, by trivial, by rw [if_neg hd]⟩

theorem is_allowed_other {rl : RateLimiter} {b : String} (now : ℚ) {d : String} (hd : d ≠ b) :
    (is_allowed rl b now).2.blocked_clients d = rl.blocked_clients d ∧
    (is_allowed rl b now).2.max_requests = rl.max_requests ∧
    (is_allowed rl b now).2.window_seconds = rl.window_seconds ∧
    ((is_allowed rl b now).2.requests d = rl.requests d ∨
      (is_allowed rl b now).2.requests d =
        sweepRequests rl.window_seconds rl.requests now d) := by
  cases hb : rl.blocked_clients b with
  | some bu =>
    by_cases hlt : now < bu
    · rw [is_allowed_blocked_active now hb hlt]
      exact ⟨rfl, rfl, rfl, Or.inl rfl⟩
    · rw [is_allowed_blocked_expired now hb hlt]
      obtain ⟨h1, h2, h3, h4⟩ := @core_other { rl with blocked_clients :=
        fun k => (if k = b then none else rl.blocked_clients k) } b now d hd
      refine ⟨?_, h2, h3, Or.inr h4⟩
      rw [h1]
      dsimp only
      rw [if_neg hd]
  | none =>
    rw [is_allowed_eq_core now hb]
    obtain ⟨h1, h2, h3, h4⟩ := core_other now hd
    exact ⟨h1, h2, h3, Or.inr h4⟩

theorem agree_step_other {A : String} {t tb : ℚ} {si ss : RateLimiter} {b : String}
    (hb : A ≠ b) (hag : AgreeA A t si ss) (hmono : t ≤ tb) :
    AgreeA A tb (is_allowed si b tb).2 ss := by
  obtain ⟨hmax, hwin, hbl, hreq⟩ := hag
  obtain ⟨h1, h2, h3, h4⟩ := @is_allowed_other si b tb A hb
  refine ⟨by rw [h2, hmax], by rw [h3, hwin], by rw [h1, hbl], ?_⟩
  rcases hreq with hcase | ⟨hnone, e, hse, hcert⟩
  · rcases h4 with h4 | h4
    · exact Or.inl (by rw [h4, hcase])
    · cases hsw : si.requests A with
      | none =>
        left
        rw [h4, sweep_none_val hsw, ← hcase, hsw]
      | some e3 =>
        by_cases hlive : tb - e3.first_request < (si.window_seconds : ℚ)
        · left
          rw [h4, sweep_some_of_live hsw hlive, ← hcase, hsw]
        · right
          refine ⟨by rw [h4, sweep_none_of_expired hsw hlive], e3, by rw [← hcase, hsw], ?_⟩
          rw [h3]
          linarith
  · rcases h4 with h4 | h4
    · exact Or.inr ⟨by rw [h4, hnone], e, hse, by rw [h3]; linarith⟩
    · exact Or.inr ⟨by rw [h4, sweep_none_val hnone], e, hse, by rw [h3]; linarith⟩

theorem core_sim {A : String} {ta : ℚ} {si ss : RateLimiter}
    (hmax : si.max_requests = ss.max_requests)
    (hwin : si.window_seconds = ss.window_seconds)
    (hbl : si.blocked_clients A = ss.blocked_clients A)
    (hreq : si.requests A = ss.requests A ∨
      (si.requests A = none ∧ ∃ e, ss.requests A = some e ∧
        e.first_request + (si.window_seconds : ℚ) ≤ ta)) :
    (is_allowed_core si A ta).1 = (is_allowed_core ss A ta).1 ∧
    AgreeA A ta (is_allowed_core si A ta).2 (is_allowed_core ss A ta).2 := by
  rcases hreq with heq | ⟨hnone, e, hse, hcert⟩
  · have hsw : sweepRequests si.window_seconds si.requests ta A =
        sweepRequests ss.window_seconds ss.requests ta A := by
      unfold sweepRequests
      rw [heq, hwin]
    cases hq : sweepRequests si.window_seconds si.requests ta A with
    | none =>
      have hq' : sweepRequests ss.window_seconds ss.requests ta A = none := by
        rw [← hsw, hq]
      simp only [is_allowed_core, hq, hq']
      refine ⟨by trivial, by trivial, by trivial, by rw [hbl], ?_⟩
      left
      simp
    | some e0 =>
      have hq' : sweepRequests ss.window_seconds ss.requests ta A = some e0 := by
        rw [← hsw, hq]
      by_cases hcnt : si.max_requests ≤ e0.count
      · have hcnt' : ss.max_requests ≤ e0.count := by rw [← hmax]; exact hcnt
        simp only [is_allowed_core, hq, hq', if_pos hcnt, if_pos hcnt']
        refine ⟨by rw [hmax, hwin], by trivial, by trivial, ?_, ?_⟩
        · simp only
          rw [hbl, hwin]
        · left
          simp only
          rw [hq, hq']
      · have hcnt' : ¬ ss.max_requests ≤ e0.count := by rw [← hmax]; exact hcnt
        simp only [is_allowed_core, hq, hq', if_neg hcnt, if_neg hcnt']
        refine ⟨by rw [hmax], by trivial, by trivial, by rw [hbl], ?_⟩
        left
        simp
  · have hq : sweepRequests si.window_seconds si.requests ta A = none := sweep_none_val hnone
    have hq' : sweepRequests ss.window_seconds ss.requests ta A = none := by
      apply sweep_none_of_expired hse
      rw [← hwin]
      linarith
    simp only [is_allowed_core, hq, hq']
    refine ⟨by trivial, by trivial, by trivial, by rw [hbl], ?_⟩
    left
    simp

theorem agree_step_self {A : String} {t ta : ℚ} {si ss : RateLimiter}
    (hag : AgreeA A t si ss) (hmono : t ≤ ta) :
    (is_allowed si A ta).1 = (is_allowed ss A ta).1 ∧
    AgreeA A ta (is_allowed si A ta).2 (is_allowed ss A ta).2 := by
  obtain ⟨hmax, hwin, hbl, hreq⟩ := hag
  cases hbsi : si.blocked_clients A with
  | some bu =>
    have hbss : ss.blocked_clients A = some bu := by rw [← hbl]; exact hbsi
    by_cases hlt : ta < bu
    · rw [is_allowed_blocked_active ta hbsi hlt, is_allowed_blocked_active ta hbss hlt]
      exact ⟨rfl, AgreeA_mono ⟨hmax, hwin, hbl, hreq⟩ (le_trans hmono (le_refl ta))⟩
    · rw [is_allowed_blocked_expired ta hbsi hlt, is_allowed_blocked_expired ta hbss hlt]
      refine @core_sim A ta
        { si with blocked_clients :=
          fun k => (if k = A then none else si.blocked_clients k) }
        { ss with blocked_clients :=
          fun k => (if k = A then none else ss.blocked_clients k) } hmax hwin ?_ ?_
      · simp
      · rcases hreq with heq | ⟨hnone, e, hse, hcert⟩
        · exact Or.inl heq
        · exact Or.inr ⟨hnone, e, hse, le_trans hcert hmono⟩
  | none =>
    have hbss : ss.blocked_clients A = none := by rw [← hbl]; exact hbsi
    rw [is_allowed_eq_core ta hbsi, is_allowed_eq_core ta hbss]
    apply core_sim hmax hwin hbl
    rcases hreq with heq | ⟨hnone, e, hse, hcert⟩
    · exact Or.inl heq
    · exact Or.inr ⟨hnone, e, hse, le_trans hcert hmono⟩

theorem outputsOf_cons_self (c : String) (o : Bool × String)
    (l : List (String × Bool × String)) :
    outputsOf c ((c, o) :: l) = o :: outputsOf c l := by
  simp [outputsOf]

theorem outputsOf_cons_ne {c d : String} (h : ¬ d = c) (o : Bool × String)
    (l : List (String × Bool × String)) :
    outputsOf c ((d, o) :: l) = outputsOf c l := by
  simp [outputsOf, h]

theorem runTrace_sim {A B : String} (hAB : A ≠ B) :
    ∀ (tr : List (String × ℚ)) (t : ℚ) (si ss : RateLimiter),
      AgreeA A t si ss →
      (∀ e ∈ tr, e.1 = A ∨ e.1 = B) →
      (∀ e ∈ tr, t ≤ e.2) →
      List.Pairwise (fun x y : String × ℚ => x.2 ≤ y.2) tr →
      outputsOf A (runTrace si tr) =
        outputsOf A (runTrace ss (tr.filter (fun e => e.1 = A)))
  | [], _, _, _, _, _, _, _ => rfl
  | (c0, t0) :: tr', t, si, ss, hag, hwho, hbound, hsort => by
    have ht0 : t ≤ t0 := hbound (c0, t0) (by simp)
    have htail_bound : ∀ e ∈ tr', t0 ≤ e.2 := by
      intro e he
      exact (List.pairwise_cons.mp hsort).1 e he
    have htail_sort := (List.pairwise_cons.mp hsort).2
    have htail_who : ∀ e ∈ tr', e.1 = A ∨ e.1 = B := fun e he => hwho e (by simp [he])
    rcases hwho (c0, t0) (by simp) with hA | hB
    · simp only at hA
      subst c0
      obtain ⟨hout, hag'⟩ := agree_step_self hag ht0
      have hfilter : ((A, t0) :: tr').filter (fun e => e.1 = A) =
          (A, t0) :: tr'.filter (fun e => e.1 = A) := by
        rw [List.filter_cons_of_pos]
        simp
      rw [hfilter]
      show outputsOf A ((A, (is_allowed si A t0).1.1, (is_allowed si A t0).1.2) ::
          runTrace (is_allowed si A t0).2 tr') =
        outputsOf A ((A, (is_allowed ss A t0).1.1, (is_allowed ss A t0).1.2) ::
          runTrace (is_allowed ss A t0).2 (tr'.filter (fun e => e.1 = A)))
      rw [outputsOf_cons_self, outputsOf_cons_self]
      rw [runTrace_sim hAB tr' t0 (is_allowed si A t0).2 (is_allowed ss A t0).2 hag'
        htail_who htail_bound htail_sort]
      rw [hout]
    · simp only at hB
      subst c0
      have hag' := agree_step_other hAB hag ht0
      have hfilter : ((B, t0) :: tr').filter (fun e => e.1 = A) =
          tr'.filter (fun e => e.1 = A) := by
        rw [List.filter_cons_of_neg]
        simp
        exact fun h => hAB h.symm
      rw [hfilter]
      show outputsOf A ((B, (is_allowed si B t0).1.1, (is_allowed si B t0).1.2) ::
          runTrace (is_allowed si B t0).2 tr') =
        outputsOf A (runTrace ss (tr'.filter (fun e => e.1 = A)))
      rw [outputsOf_cons_ne (fun h => hAB h.symm)]
      exact runTrace_sim hAB tr' t0 (is_allowed si B t0).2 ss hag'
        htail_who htail_bound htail_sort

/-- C9: two distinct client ids never influence each other's admission
outcomes: for any time-ordered interleaving of `is_allowed` calls from
clients `A` and `B` on a fresh rate limiter, the sequence of results `A`
receives equals the sequence it receives in the run with `B`'s calls
removed; in particular each client independently receives its own quota. -/
theorem rate_limiter_client_independence (N : ℕ) (W : ℤ) (A B : String)
    (tr : List (String × ℚ)) (hAB : A ≠ B)
    (hwho : ∀ e ∈ tr, e.1 = A ∨ e.1 = B)
    (hsort : List.Pairwise (fun x y : String × ℚ => x.2 ≤ y.2) tr) :
    outputsOf A (runTrace (RateLimiter.init N W) tr) =
      outputsOf A (runTrace (RateLimiter.init N W) (tr.filter (fun e => e.1 = A))) := by
  cases tr with
  | nil => rfl
  | cons e0 tr' =>
    apply runTrace_sim hAB (e0 :: tr') e0.2 (RateLimiter.init N W) (RateLimiter.init N W)
      ⟨rfl, rfl, rfl, Or.inl rfl⟩ hwho ?_ hsort
    intro e he
    rcases List.mem_cons.mp he with h | h
    · rw [h]
    · exact (List.pairwise_cons.mp hsort).1 e h

/-- C9 (witness): the theorem applied to a `RateLimiter(1, 60)` and the
concrete interleaving a(0), b(1), a(2), b(3): client `"a"` sees the same
results as in the run with `"b"`'s calls removed. -/
theorem rate_limiter_client_independence_witness :
    ("a" : String) ≠ "b" ∧
    (∀ e ∈ [(("a" : String), (0 : ℚ)), ("b", 1), ("a", 2), ("b", 3)],
      e.1 = "a" ∨ e.1 = "b") ∧
    List.Pairwise (fun x y : String × ℚ => x.2 ≤ y.2)
      [(("a" : String), (0 : ℚ)), ("b", 1), ("a", 2), ("b", 3)] ∧
    outputsOf "a" (runTrace (RateLimiter.init 1 60)
        [(("a" : String), (0 : ℚ)), ("b", 1), ("a", 2), ("b", 3)]) =
      outputsOf "a" (runTrace (RateLimiter.init 1 60)
        ([(("a" : String), (0 : ℚ)), ("b", 1), ("a", 2), ("b", 3)].filter
          (fun e => e.1 = "a"))) :=
  ⟨by decide, by decide, by decide,
    rate_limiter_client_independence 1 60 "a" "b"
      [(("a" : String), (0 : ℚ)), ("b", 1), ("a", 2), ("b", 3)]
      (by decide) (by decide) (by decide)⟩
